import Mathlib

/-!
Shallow embedding of the `templator` library (geometry synthesis, shared
data model, and the vector-PDF extraction pipeline) together with proofs
about the spec's claims.

Modelling conventions:

* Python floats are modelled by an arbitrary `LinearOrderedField K`; the
  claim theorems instantiate `K := ℝ` (ideal real semantics of the float
  program).  All definitions stay polymorphic so that they remain
  computable functions of the order/field structure.
* `math.sqrt(3.0)` is modelled by an explicit parameter `sqrt3 : K`; the
  claim theorems pass `Real.sqrt 3`.
* A Python function that raises is modelled as `Except PyError _` with an
  error constructor matching the raised exception class.
* Python `int` counts are modelled by `ℕ` where the source guarantees
  non-negativity (list lengths, column counts); loop-internal column
  counts stay in `ℤ` exactly where the source computes them with
  `math.floor`.
* `str` layout keys (after the source's `.lower()` normalisation) are
  modelled by the enumeration `Layout`; unsupported layout strings raise
  in the source before any geometry is computed and are outside the model.
* `metadata` (a free-form string map built with Python string formatting)
  is not modelled; no claim concerns it.
-/

namespace Templator

/-- Layout keys accepted by the circle-lattice synthesizer
(`"simple"`/`"close"` after lower-casing). -/
inductive Layout where
  | simple
  | close
deriving DecidableEq

/-- Grid kinds of `models.GridKind`. -/
inductive GridKind where
  | rectangular
  | circle_simple
  | circle_close
deriving DecidableEq

/-- Label shapes of `models.LabelShape`. -/
inductive LabelShape where
  | rectangle
  | circle
deriving DecidableEq

/-- Coordinate spaces of `models.CoordinateSpace`. -/
inductive CoordSpace where
  | percent_width
  | points
  | inches
  | mm
deriving DecidableEq

/-- Python exception classes raised by the modelled code. -/
inductive PyError where
  | valueError (msg : String)
  | indexError (msg : String)
  | fileNotFoundError (msg : String)
deriving DecidableEq

variable {K : Type} [LinearOrderedField K]

/-- Models `geometry._EPSILON = 1e-9` (the ideal value of the float literal). -/
def EPSILON : K := 1 / 1000000000

/-- Models `geometry.POINTS_PER_INCH = 72.0`. -/
def POINTS_PER_INCH : K := 72

/-- Models `geometry.MM_PER_INCH = 25.4`. -/
def MM_PER_INCH : K := 254 / 10

/-- Models `geometry.percent_of_width` (raises `ValueError` on a
non-positive page width via `_validate_page_width`). -/
def percent_of_width (point : K × K) (page_width_pt : K) : Except PyError (K × K) :=
  if page_width_pt ≤ 0 then
    .error (.valueError "Page width must be positive.")
  else
    let scale := 100 / page_width_pt
    .ok (point.1 * scale, point.2 * scale)

/-- Models the scalar branch of `geometry.points_to_inches`. -/
def points_to_inches (value : K) : K := value / POINTS_PER_INCH

/-- Models the scalar branch of `geometry.points_to_mm`. -/
def points_to_mm (value : K) : K := points_to_inches value * MM_PER_INCH

/-- Models the scalar branch of `geometry.inches_to_points`. -/
def inches_to_points (value : K) : K := value * POINTS_PER_INCH

/-- Models the scalar branch of `geometry.mm_to_points`. -/
def mm_to_points (value : K) : K := value * POINTS_PER_INCH / MM_PER_INCH

/-- Models the tuple branch of `geometry.points_to_inches`. -/
def points_to_inches_point (value : K × K) : K × K :=
  (points_to_inches value.1, points_to_inches value.2)

/-- Models the tuple branch of `geometry.points_to_mm`. -/
def points_to_mm_point (value : K × K) : K × K :=
  (points_to_mm value.1, points_to_mm value.2)

/-- Models the tuple branch of `geometry.inches_to_points`. -/
def inches_to_points_point (value : K × K) : K × K :=
  (inches_to_points value.1, inches_to_points value.2)

/-- Models the tuple branch of `geometry.mm_to_points`. -/
def mm_to_points_point (value : K × K) : K × K :=
  (mm_to_points value.1, mm_to_points value.2)

/-- Models `render._convert_length`: length conversion from a coordinate
space back into PDF points. -/
def convert_length (value : K) (coord_space : CoordSpace) (page_width_pt : K) : K :=
  match coord_space with
  | .points => value
  | .percent_width => value * page_width_pt / 100
  | .inches => inches_to_points value
  | .mm => mm_to_points value

/-- Models `render._convert_point` (componentwise `_convert_length`). -/
def convert_point (value : K × K) (coord_space : CoordSpace) (page_width_pt : K) : K × K :=
  (convert_length value.1 coord_space page_width_pt,
   convert_length value.2 coord_space page_width_pt)

/-- The row-major order on points used by `geometry.ensure_row_major`
(Python sort key `(y, x)`): non-decreasing in y, ties broken by x. -/
def row_major_le (p q : K × K) : Prop :=
  p.2 < q.2 ∨ (p.2 = q.2 ∧ p.1 ≤ q.1)

instance : DecidableRel (row_major_le (K := K)) := fun p q => by
  unfold row_major_le
  infer_instance

instance : IsTrans (K × K) (row_major_le (K := K)) where
  trans := by
    rintro a b c (h1 | ⟨h1, h1x⟩) (h2 | ⟨h2, h2x⟩)
    · exact Or.inl (h1.trans h2)
    · exact Or.inl (h2 ▸ h1)
    · exact Or.inl (h1 ▸ h2)
    · exact Or.inr ⟨h1.trans h2, h1x.trans h2x⟩

instance : IsTotal (K × K) (row_major_le (K := K)) where
  total := by
    intro a b
    rcases lt_trichotomy a.2 b.2 with h | h | h
    · exact Or.inl (Or.inl h)
    · rcases le_total a.1 b.1 with hx | hx
      · exact Or.inl (Or.inr ⟨h, hx⟩)
      · exact Or.inr (Or.inr ⟨h.symm, hx⟩)
    · exact Or.inr (Or.inl h)

/-- Models `geometry.ensure_row_major`: Python's stable sort with key
`(y, x)`.  The key determines the whole element, so any sorting algorithm
returns the same list; insertion sort is used here. -/
def ensure_row_major (points : List (K × K)) : List (K × K) :=
  List.insertionSort row_major_le points

/-- Models `models.PageMetrics` (fields only; the `__post_init__`
validation lives in `mkPageMetrics`). -/
structure PageMetrics (K : Type) where
  width_pt : K
  height_pt : K

/-- Models construction of `models.PageMetrics` including its
`__post_init__` validation. -/
def mkPageMetrics (width_pt height_pt : K) : Except PyError (PageMetrics K) :=
  if width_pt ≤ 0 ∨ height_pt ≤ 0 then
    .error (.valueError "Page dimensions must be positive.")
  else
    .ok ⟨width_pt, height_pt⟩

/-- Models `models.GridMetrics` (fields only). -/
structure GridMetrics (K : Type) where
  kind : GridKind
  rows : ℕ
  columns : ℕ
  delta_x_pt : K
  delta_y_pt : K
  row_offsets_pt : List K
  columns_per_row : Option (List ℕ)

/-- Models construction of `models.GridMetrics` including its
`__post_init__` validation, in source order.  Counts are `ℕ`, so the
source's `<= 0` tests become `= 0` tests. -/
def mkGridMetrics (kind : GridKind) (rows columns : ℕ) (delta_x_pt delta_y_pt : K)
    (row_offsets_pt : List K) (columns_per_row : Option (List ℕ)) :
    Except PyError (GridMetrics K) :=
  if rows = 0 ∨ columns = 0 then
    .error (.valueError "Grid rows and columns must be positive integers.")
  else if delta_x_pt ≤ 0 ∨ delta_y_pt ≤ 0 then
    .error (.valueError "Grid spacing must be positive.")
  else if row_offsets_pt ≠ [] ∧ row_offsets_pt.length ≠ rows then
    .error (.valueError "Row offsets must match the number of rows.")
  else
    match columns_per_row with
    | some cpr =>
      if cpr.length ≠ rows then
        .error (.valueError "Columns-per-row metadata must match row count.")
      else if cpr.any (fun columns => columns = 0) then
        .error (.valueError "Columns-per-row values must be positive integers.")
      else
        .ok ⟨kind, rows, columns, delta_x_pt, delta_y_pt, row_offsets_pt, columns_per_row⟩
    | none =>
      .ok ⟨kind, rows, columns, delta_x_pt, delta_y_pt, row_offsets_pt, columns_per_row⟩

/-- Models `models.LabelGeometry` (fields only). -/
structure LabelGeometry (K : Type) where
  shape : LabelShape
  width_pt : K
  height_pt : K

/-- Models construction of `models.LabelGeometry` including its
`__post_init__` validation (`abs(width - height) > 1e-6` for circles). -/
def mkLabelGeometry (shape : LabelShape) (width_pt height_pt : K) :
    Except PyError (LabelGeometry K) :=
  if width_pt ≤ 0 ∨ height_pt ≤ 0 then
    .error (.valueError "Label dimensions must be positive.")
  else if shape = .circle ∧ 1 / 1000000 < |width_pt - height_pt| then
    .error (.valueError "Circle geometry requires equal width and height.")
  else
    .ok ⟨shape, width_pt, height_pt⟩

/-- Models the `LabelGeometry.diameter_pt` property.  The source raises
`AttributeError` for non-circular shapes; every modelled call site
passes a circular label. -/
def LabelGeometry.diameter_pt (label : LabelGeometry K) : K := label.width_pt

/-- Models `models.AnchorPoints`. -/
structure AnchorPoints (K : Type) where
  top_left_pt : K × K
  bottom_left_pt : K × K

/-- Models `models.ExtractedTemplate` (fields only; `metadata` is not
modelled). -/
structure ExtractedTemplate (K : Type) where
  page : PageMetrics K
  grid : GridMetrics K
  label : LabelGeometry K
  anchors : AnchorPoints K
  centers_pt : List (K × K)

/-- Models construction of `models.ExtractedTemplate` including its
`__post_init__`: an empty centre sequence raises, otherwise the centres
are re-ordered row-major. -/
def mkExtractedTemplate (page : PageMetrics K) (grid : GridMetrics K)
    (label : LabelGeometry K) (anchors : AnchorPoints K)
    (centers_pt : List (K × K)) : Except PyError (ExtractedTemplate K) :=
  if centers_pt = [] then
    .error (.valueError "Templates must contain at least one centre point.")
  else
    .ok ⟨page, grid, label, anchors, ensure_row_major centers_pt⟩

/-- Models `geometry.CircleLattice`. -/
structure CircleLattice (K : Type) where
  pitch_x_pt : K
  pitch_y_pt : K
  row_offset_pt : K

/-- Models `geometry._circle_lattice_parameters`.  `sqrt3` models the
float value `math.sqrt(3.0)`; the claim theorems pass `Real.sqrt 3`. -/
def circle_lattice_parameters (sqrt3 : K) (layout : Layout) (diameter_pt gap_pt : K) :
    Except PyError (CircleLattice K) :=
  if diameter_pt ≤ 0 then
    .error (.valueError "Circle diameter must be positive.")
  else if gap_pt < 0 then
    .error (.valueError "Circle gap must be non-negative.")
  else
    let pitch_x := diameter_pt + gap_pt
    match layout with
    | .simple => .ok ⟨pitch_x, pitch_x, 0⟩
    | .close => .ok ⟨pitch_x, sqrt3 * pitch_x / 2, pitch_x / 2⟩

/-- Models `geometry._validate_margins` for the four-tuple
`(top, right, bottom, left)`; the length-4 check is structural here. -/
def validate_margins (margin_pt : K × K × K × K) : Except PyError (K × K × K × K) :=
  if margin_pt.1 < 0 ∨ margin_pt.2.1 < 0 ∨ margin_pt.2.2.1 < 0 ∨ margin_pt.2.2.2 < 0 then
    .error (.valueError "Margins must be non-negative.")
  else
    .ok margin_pt

/-- Models `geometry._usable_extent`. -/
def usable_extent (page margin_a margin_b diameter_pt : K) : Except PyError K :=
  let usable := page - margin_a - margin_b
  if usable < diameter_pt - EPSILON then
    .error (.valueError "Page margins leave no usable space for the requested diameter.")
  else
    .ok usable

/-- The source's `raw_columns = min(raw_columns, max_cols)` clamp,
applied only when `max_cols` is provided. -/
def clamp_columns (max_cols : Option ℤ) (raw_columns : ℤ) : ℤ :=
  match max_cols with
  | some cap => min raw_columns cap
  | none => raw_columns

/-- The source's `max_rows is not None and added_rows >= max_rows` stop
test (evaluated after `added_rows` was incremented). -/
def reached_max_rows (max_rows : Option ℤ) (added_rows : ℤ) : Bool :=
  match max_rows with
  | some cap => decide (cap ≤ added_rows)
  | none => false

/-- The per-row x offset computed inside the `_generate_circle_centres`
loop: `row_offset` on odd rows of a close layout, zero otherwise. -/
def offAt (close_layout : Bool) (row_offset : K) (attempted_row : ℕ) : K :=
  if close_layout = true ∧ attempted_row % 2 = 1 then row_offset else 0

/-- Models the `while True` row loop of `geometry._generate_circle_centres`.
The source loop terminates because `y` strictly increases by `pitch_y > 0`
per row; here the iteration count is bounded by an explicit `fuel`
argument, instantiated with `circle_rows_fuel` (a bound on the number of
attempted rows) by `generate_circle_centres`.  Returns
`(centres, row_offsets, columns_per_row)`. -/
def circle_rows_loop [FloorRing K] (close_layout : Bool)
    (pitch_x pitch_y row_offset start_x_base max_x start_y max_y : K)
    (max_cols max_rows : Option ℤ) (fuel attempted_row added_rows : ℕ) :
    List (K × K) × List K × List ℕ :=
  match fuel with
  | 0 => ([], [], [])
  | fuel + 1 =>
    let y := start_y + (attempted_row : K) * pitch_y
    if max_y + EPSILON < y then ([], [], [])
    else
      let offset := offAt close_layout row_offset attempted_row
      let x_start := start_x_base + offset
      if max_x + EPSILON < x_start then
        circle_rows_loop close_layout pitch_x pitch_y row_offset start_x_base max_x
          start_y max_y max_cols max_rows fuel (attempted_row + 1) added_rows
      else
        let available_x := max_x - x_start
        if available_x < -EPSILON then
          circle_rows_loop close_layout pitch_x pitch_y row_offset start_x_base max_x
            start_y max_y max_cols max_rows fuel (attempted_row + 1) added_rows
        else
          let raw_columns : ℤ :=
            clamp_columns max_cols (⌊(available_x + EPSILON) / pitch_x⌋ + 1)
          if raw_columns ≤ 0 then
            circle_rows_loop close_layout pitch_x pitch_y row_offset start_x_base max_x
              start_y max_y max_cols max_rows fuel (attempted_row + 1) added_rows
          else
            let row_centres :=
              (List.range raw_columns.toNat).map fun column : ℕ =>
                (x_start + (column : K) * pitch_x, y)
            let rest :=
              if reached_max_rows max_rows ((added_rows : ℤ) + 1) then ([], [], [])
              else
                circle_rows_loop close_layout pitch_x pitch_y row_offset start_x_base max_x
                  start_y max_y max_cols max_rows fuel (attempted_row + 1) (added_rows + 1)
            (row_centres ++ rest.1, offset :: rest.2.1, raw_columns.toNat :: rest.2.2)

/-- Fuel bound for `circle_rows_loop`: one more than the number of rows
whose `y` can satisfy the loop's continuation test (see
`circle_rows_loop_fuel_irrelevant`). -/
def circle_rows_fuel [FloorRing K] (pitch_y start_y max_y : K) : ℕ :=
  (⌈(max_y + EPSILON - start_y) / pitch_y⌉).toNat + 1

/-- The source's `max_cols is not None and max_cols <= 0` test (and its
`max_rows` twin). -/
def cap_nonpositive (cap : Option ℤ) : Bool :=
  match cap with
  | some value => decide (value ≤ 0)
  | none => false


/-- Models `geometry._generate_circle_centres`: validations in source
order followed by the row loop and the emptiness check. -/
def generate_circle_centres [FloorRing K] (sqrt3 : K) (layout : Layout)
    (page_w_pt page_h_pt diameter_pt : K) (margin_pt : K × K × K × K) (gap_pt : K)
    (max_cols max_rows : Option ℤ) :
    Except PyError (List (K × K) × List K × List ℕ) :=
  match circle_lattice_parameters sqrt3 layout diameter_pt gap_pt with
  | .error e => .error e
  | .ok lattice =>
    match validate_margins margin_pt with
    | .error e => .error e
    | .ok margins =>
      let top := margins.1
      let right := margins.2.1
      let bottom := margins.2.2.1
      let left := margins.2.2.2
      if page_w_pt ≤ 0 then .error (.valueError "Page width must be positive.")
      else if page_h_pt ≤ 0 then .error (.valueError "Page height must be positive.")
      else if cap_nonpositive max_cols then
        .error (.valueError "max_cols must be positive when provided.")
      else if cap_nonpositive max_rows then
        .error (.valueError "max_rows must be positive when provided.")
      else
        match usable_extent page_w_pt left right diameter_pt with
        | .error e => .error e
        | .ok _ =>
          match usable_extent page_h_pt top bottom diameter_pt with
          | .error e => .error e
          | .ok _ =>
            let radius := diameter_pt / 2
            let max_x := page_w_pt - right - radius
            let start_x_base := left + radius
            let max_y := page_h_pt - bottom - radius
            let start_y := top + radius
            let result :=
              circle_rows_loop (layout = Layout.close) lattice.pitch_x_pt lattice.pitch_y_pt
                lattice.row_offset_pt start_x_base max_x start_y max_y max_cols max_rows
                (circle_rows_fuel lattice.pitch_y_pt start_y max_y) 0 0
            if result.1 = [] then
              .error (.valueError "No circle centres could be generated with the provided configuration.")
            else
              .ok result

/-- Models `geometry._grid_metadata`.  The source's `max(columns_per_row)`
(which raises on an empty argument) is modelled with a default of `0`;
every call site passes a non-empty list, and a zero row count would fail
`mkGridMetrics` anyway. -/
def grid_metadata (layout : Layout) (lattice : CircleLattice K)
    (columns_per_row : List ℕ) (row_offsets : List K) : Except PyError (GridMetrics K) :=
  let rows := columns_per_row.length
  let columns := columns_per_row.foldr max 0
  let uniform_columns := columns_per_row.all fun value => value = columns
  let columns_metadata : Option (List ℕ) :=
    if uniform_columns then none else some columns_per_row
  let kind : GridKind :=
    match layout with
    | .simple => .circle_simple
    | .close => .circle_close
  mkGridMetrics kind rows columns lattice.pitch_x_pt lattice.pitch_y_pt
    row_offsets columns_metadata

/-- Sqrt-free Boolean form of `math.hypot(dx, dy) < bound`: since the
hypotenuse is non-negative, it is below `bound` exactly when `bound` is
positive and the squared hypotenuse is below `bound ^ 2`
(see `hypot_lt_iff_sqrt`). -/
def hypot_lt (dx dy bound : K) : Bool :=
  if 0 < bound ∧ dx ^ 2 + dy ^ 2 < bound ^ 2 then true else false

/-- Models the pairwise overlap loop of
`geometry._validate_circle_constraints` (`for` over `enumerate` with the
inner slice `centres[index + 1:]`). -/
def pairwise_overlap_check (min_distance : K) : List (K × K) → Except PyError Unit
  | [] => .ok ()
  | c :: rest =>
    if rest.any (fun c2 => hypot_lt (c2.1 - c.1) (c2.2 - c.2) min_distance) then
      .error (.valueError "Generated centres overlap based on the requested diameter and gap.")
    else
      pairwise_overlap_check min_distance rest

/-- Models `geometry._validate_circle_constraints`: bounds pass first,
pairwise distance pass second. -/
def validate_circle_constraints (template : ExtractedTemplate K)
    (margin_pt : K × K × K × K) : Except PyError Unit :=
  let diameter_pt := template.label.diameter_pt
  let radius := diameter_pt / 2
  let top := margin_pt.1
  let right := margin_pt.2.1
  let bottom := margin_pt.2.2.1
  let left := margin_pt.2.2.2
  let page_w := template.page.width_pt
  let page_h := template.page.height_pt
  let min_x := left + radius - EPSILON
  let max_x := page_w - right - radius + EPSILON
  let min_y := top + radius - EPSILON
  let max_y := page_h - bottom - radius + EPSILON
  if template.centers_pt.any (fun c =>
      !(decide (min_x ≤ c.1 ∧ c.1 ≤ max_x ∧ min_y ≤ c.2 ∧ c.2 ≤ max_y))) then
    .error (.valueError "Generated centre lies outside the allowed page bounds.")
  else
    pairwise_overlap_check (diameter_pt - EPSILON) template.centers_pt

/-- Models `geometry.synthesize_circles` end to end. -/
def synthesize_circles [FloorRing K] (sqrt3 : K) (layout : Layout)
    (page_w_pt page_h_pt diameter_pt : K) (margin_pt : K × K × K × K) (gap_pt : K)
    (max_cols max_rows : Option ℤ) : Except PyError (ExtractedTemplate K) :=
  match circle_lattice_parameters sqrt3 layout diameter_pt gap_pt with
  | .error e => .error e
  | .ok lattice =>
    match generate_circle_centres sqrt3 layout page_w_pt page_h_pt diameter_pt
        margin_pt gap_pt max_cols max_rows with
    | .error e => .error e
    | .ok result =>
      let centres := result.1
      let row_offsets := result.2.1
      let columns_per_row := result.2.2
      match grid_metadata layout lattice columns_per_row row_offsets with
      | .error e => .error e
      | .ok grid =>
        let top_left := centres.headD (0, 0)
        let centre_index := columns_per_row.dropLast.sum
        let bottom_left := centres.getD centre_index (0, 0)
        let anchors : AnchorPoints K := ⟨top_left, bottom_left⟩
        match mkPageMetrics page_w_pt page_h_pt with
        | .error e => .error e
        | .ok page =>
          match mkLabelGeometry .circle diameter_pt diameter_pt with
          | .error e => .error e
          | .ok label =>
            match mkExtractedTemplate page grid label anchors centres with
            | .error e => .error e
            | .ok template =>
              match validate_circle_constraints template margin_pt with
              | .error e => .error e
              | .ok _ => .ok template

/-- Sort a list ascending by a `K`-valued key, as Python's stable
`sorted(key=...)` (insertion sort is stable, matching it). -/
def sortByKey {α : Type} (key : α → K) (l : List α) : List α :=
  @List.insertionSort α (fun a b => key a ≤ key b)
    (fun a b => inferInstanceAs (Decidable (key a ≤ key b))) l

/-- Models `statistics.median` / `numpy.median`: middle element of the
sorted data, or the mean of the two middle elements.  The source raises
on an empty sequence; every modelled call site passes a non-empty list,
and the empty case defaults to `0` here. -/
def median (values : List K) : K :=
  let sorted := sortByKey (fun v => v) values
  let n := sorted.length
  if n = 0 then 0
  else if n % 2 = 1 then sorted.getD (n / 2) 0
  else (sorted.getD (n / 2 - 1) 0 + sorted.getD (n / 2) 0) / 2

/-- Models `statistics.mean` / `numpy.mean` (sum over length). -/
def mean (values : List K) : K := values.sum / (values.length : K)

/-- A `fitz.Rect` (two corners, axis aligned). -/
structure FitzRect (K : Type) where
  x0 : K
  y0 : K
  x1 : K
  y1 : K

/-- `fitz.Rect.width`. -/
def FitzRect.width (r : FitzRect K) : K := r.x1 - r.x0

/-- `fitz.Rect.height`. -/
def FitzRect.height (r : FitzRect K) : K := r.y1 - r.y0

/-- Path operators occurring in drawing items: `"re"` (native
rectangle), `"l"`/`"L"` (straight segment), anything else. -/
inductive PathOp where
  | re
  | l
  | other
deriving DecidableEq

/-- One entry of a drawing's `items` list: its operator and the
`fitz.Point` entries among its remaining components (the source skips
non-point entries). -/
structure DrawItem (K : Type) where
  op : PathOp
  points : List (K × K)

/-- One drawing dictionary as returned by `page.get_drawings()`:
an optional bounding rectangle plus its path items. -/
structure Drawing (K : Type) where
  rect : Option (FitzRect K)
  items : List (DrawItem K)

/-- A page as exposed by `fitz`: its media rectangle and drawings. -/
structure FitzPage (K : Type) where
  rect : FitzRect K
  drawings : List (Drawing K)

/-- A document as exposed by `fitz.open`: its pages. -/
structure FitzDocument (K : Type) where
  pages : List (FitzPage K)

/-- Models `pdf_extract._DetectedRectangle`. -/
structure DetectedRectangle (K : Type) where
  center : K × K
  width : K
  height : K
  radius : K

/-- The corner-radius candidate offsets one straight-segment endpoint
contributes in `pdf_extract._estimate_corner_radius`: x candidates from
the left/right sides and y candidates from the top/bottom sides, each
kept when strictly between `1e-6` and half the corresponding dimension
plus `1e-6`. -/
def corner_candidates (left right top bottom limit_x limit_y : K) (p : K × K) :
    List K × List K :=
  let dx_left := p.1 - left
  let dx_right := right - p.1
  let dy_top := p.2 - top
  let dy_bottom := bottom - p.2
  ((if 1 / 1000000 < dx_left ∧ dx_left < limit_x then [dx_left] else []) ++
     (if 1 / 1000000 < dx_right ∧ dx_right < limit_x then [dx_right] else []),
   (if 1 / 1000000 < dy_top ∧ dy_top < limit_y then [dy_top] else []) ++
     (if 1 / 1000000 < dy_bottom ∧ dy_bottom < limit_y then [dy_bottom] else []))

/-- Models `pdf_extract._estimate_corner_radius`. -/
def estimate_corner_radius (items : List (DrawItem K)) (rect : FitzRect K) : K :=
  let width := rect.width
  let height := rect.height
  if width ≤ 0 ∨ height ≤ 0 then 0
  else
    let limit_x := width / 2 + 1 / 1000000
    let limit_y := height / 2 + 1 / 1000000
    let segment_points := (items.filter fun item => item.op = PathOp.l).flatMap (·.points)
    let candidates := segment_points.map
      (corner_candidates rect.x0 rect.x1 rect.y0 rect.y1 limit_x limit_y)
    let x_candidates := candidates.flatMap (·.1)
    let y_candidates := candidates.flatMap (·.2)
    if x_candidates = [] ∧ y_candidates = [] then 0
    else if x_candidates ≠ [] ∧ y_candidates ≠ [] then
      (median x_candidates + median y_candidates) / 2
    else if x_candidates ≠ [] then median x_candidates
    else median y_candidates

/-- Models `pdf_extract._rectangle_from_drawing`. -/
def rectangle_from_drawing (drawing : Drawing K) : Option (DetectedRectangle K) :=
  match drawing.rect with
  | none => none
  | some rect =>
    match drawing.items with
    | [] => none
    | first_item :: _ =>
      let radius :=
        if first_item.op = PathOp.re then 0
        else estimate_corner_radius drawing.items rect
      let width := rect.width
      let height := rect.height
      if width ≤ 0 ∨ height ≤ 0 then none
      else
        some ⟨((rect.x0 + rect.x1) / 2, (rect.y0 + rect.y1) / 2), width, height, radius⟩

/-- One step of the greedy row assignment in `_cluster_rows`: append the
rectangle to the first existing row whose running mean y is within the
tolerance, else start a new row at the end. -/
def place_rect {α : Type} (center : α → K × K) (row_tolerance : K) (rect : α) :
    List (List α) → List (List α)
  | [] => [[rect]]
  | row :: rest =>
    if |(center rect).2 - mean (row.map fun r => (center r).2)| ≤ row_tolerance then
      (row ++ [rect]) :: rest
    else
      row :: place_rect center row_tolerance rect rest

/-- Models `_cluster_rows` (present in both `pdf_extract` and
`image_extract`; the two copies differ only in the tolerance constants,
passed here as `tol_factor`/`tol_min`, and are duck-typed over the
rectangle type, passed here as `center`/`height` accessors). -/
def cluster_rows {α : Type} (center : α → K × K) (height : α → K)
    (tol_factor tol_min : K) (rectangles : List α) : List (List α) :=
  match rectangles with
  | [] => []
  | _ :: _ =>
    let median_height := median (rectangles.map height)
    let row_tolerance := max (median_height * tol_factor) tol_min
    let sorted_rects := sortByKey (fun r => (center r).2) rectangles
    let rows := sorted_rects.foldl
      (fun rows rect => place_rect center row_tolerance rect rows) []
    let rows := rows.map fun row => sortByKey (fun r => (center r).1) row
    sortByKey (fun row => mean (row.map fun r => (center r).2)) rows

/-- Models `_flatten_rows`. -/
def flatten_rows {α : Type} (rows : List (List α)) : List α := rows.flatten

/-- Differences of consecutive values (`values[idx] - values[idx - 1]`
for `idx` in `1..`), as used for the pitch estimates. -/
def consecutive_differences (values : List K) : List K :=
  (values.zip values.tail).map fun p => p.2 - p.1

/-- The grid-inference tail shared by both detectors (spec section 4.1),
from a clustered row list to an `ExtractedTemplate`.  `columns_per_row`
selects the detector-specific `GridMetrics` construction: the vector
detector passes `none` unconditionally, the raster detector passes the
per-row counts unconditionally. -/
def grid_inference {α : Type} (center : α → K × K) (width : α → K) (height : α → K)
    (page_width_pt page_height_pt : K) (rows : List (List α))
    (with_columns_per_row : Bool) : Except PyError (Option (ExtractedTemplate K)) :=
  match rows with
  | [] => .ok none
  | _ :: _ =>
    let ordered_rectangles := flatten_rows rows
    let widths := ordered_rectangles.map width
    let heights := ordered_rectangles.map height
    let centers := ordered_rectangles.map center
    let label_width := median widths
    let label_height := median heights
    let row_centers := rows.map fun row => mean (row.map fun r => (center r).2)
    let column_counts := rows.map List.length
    let delta_y_values := consecutive_differences row_centers
    let delta_y := if delta_y_values = [] then label_height else median delta_y_values
    let delta_x_values := rows.flatMap fun row =>
      if row.length < 2 then []
      else consecutive_differences (row.map fun r => (center r).1)
    let delta_x := if delta_x_values = [] then label_width else median delta_x_values
    let top_left_center := ((rows.headD []).map center).headD (0, 0)
    let bottom_left_center := ((rows.getLastD []).map center).headD (0, 0)
    match mkPageMetrics page_width_pt page_height_pt with
    | .error e => .error e
    | .ok page_metrics =>
      match mkGridMetrics .rectangular rows.length (column_counts.foldr max 0)
          delta_x delta_y []
          (if with_columns_per_row then some column_counts else none) with
      | .error e => .error e
      | .ok grid_metrics =>
        match mkLabelGeometry .rectangle label_width label_height with
        | .error e => .error e
        | .ok label_geometry =>
          let anchors : AnchorPoints K := ⟨top_left_center, bottom_left_center⟩
          match mkExtractedTemplate page_metrics grid_metrics label_geometry anchors centers with
          | .error e => .error e
          | .ok template => .ok (some template)

/-- The part of `pdf_extract.extract_template` from the candidate
rectangle list onward (the `rows[0][0]`/`rows[-1][0]` anchor reads are
modelled with defaults; clustering produces only non-empty rows). -/
def pdf_extract_from_rectangles (page_rect : FitzRect K)
    (rectangles : List (DetectedRectangle K)) :
    Except PyError (Option (ExtractedTemplate K)) :=
  match rectangles with
  | [] => .ok none
  | _ :: _ =>
    let rows := cluster_rows (fun r => r.center) (fun r => r.height) (1 / 4) (1 / 2) rectangles
    grid_inference (fun r => r.center) (fun r => r.width) (fun r => r.height)
      page_rect.width page_rect.height rows false

/-- Models `pdf_extract.extract_template`.  The filesystem and `fitz`
boundary is abstracted: a missing file is `document = none`, otherwise
`document = some doc` with the parsed pages.  The source deletes
`prefer_vector` and `dpi` immediately; they are parameters here but are
not used. -/
def pdf_extract_template (document : Option (FitzDocument K)) (page : ℤ)
    (prefer_vector : Bool) (dpi : ℤ) : Except PyError (Option (ExtractedTemplate K)) :=
  match document with
  | none => .error (.fileNotFoundError "The provided PDF path does not exist.")
  | some doc =>
    if page < 0 ∨ (doc.pages.length : ℤ) ≤ page then
      .error (.indexError "Requested page index outside range.")
    else
      match doc.pages.get? page.toNat with
      | none => .error (.indexError "Requested page index outside range.")
      | some pdf_page =>
        let rectangles := pdf_page.drawings.filterMap rectangle_from_drawing
        pdf_extract_from_rectangles pdf_page.rect rectangles

/-- Models `image_extract._DetectedRectangle` (no corner radius). -/
structure RasterRectangle (K : Type) where
  center : K × K
  width : K
  height : K

/-- The part of `image_extract.extract_template` from the detected
rectangle list onward.  The pixel front end (Sobel gradients, adaptive
threshold, morphology, connected components, box refinement and outlier
filtering) computes over float square roots and percentiles and is not
modelled; this function takes its output, matching the spec's Grid
Inference Engine boundary. -/
def image_extract_from_rectangles (page_width_pt page_height_pt : K)
    (rectangles : List (RasterRectangle K)) :
    Except PyError (Option (ExtractedTemplate K)) :=
  match rectangles with
  | [] => .ok none
  | _ :: _ =>
    let rows := cluster_rows (fun r => r.center) (fun r => r.height) (3 / 10) (3 / 4) rectangles
    grid_inference (fun r => r.center) (fun r => r.width) (fun r => r.height)
      page_width_pt page_height_pt rows true

/-- Derived quantity (not in the source): the number of rows the loop of
`_generate_circle_centres` emits for a layout without row offsets, namely
the number of `attempted_row` values whose `y` passes the continuation
test. -/
def simple_row_total [FloorRing K] (pitch_y start_y max_y : K) : ℕ :=
  (⌊(max_y + EPSILON - start_y) / pitch_y⌋ + 1).toNat

/-- Derived quantity (not in the source): the per-row column count the
loop computes when the row starts at `start_x_base` (no offset, no cap). -/
def simple_column_count [FloorRing K] (pitch_x start_x_base max_x : K) : ℕ :=
  (⌊(max_x - start_x_base + EPSILON) / pitch_x⌋ + 1).toNat

/-- A square vector drawing of side 8 at position `(x0, y0)`, drawn with
a native rectangle primitive. -/
def square_drawing (x0 y0 : K) : Drawing K :=
  { rect := some ⟨x0, y0, x0 + 8, y0 + 8⟩, items := [⟨PathOp.re, []⟩] }

/-- A concrete one-page vector document whose drawings form a ragged
grid: two squares in the top row, one in the bottom row. -/
def ragged_document : FitzDocument K :=
  ⟨[⟨⟨0, 0, 612, 792⟩,
     [square_drawing 6 6, square_drawing 26 6, square_drawing 6 26]⟩]⟩

/-! ## Theorems -/

set_option maxHeartbeats 2000000 in
theorem ragged_document_eval :
    pdf_extract_template (some (ragged_document (K := ℝ))) 0 true 200 =
      .ok (some ⟨⟨612, 792⟩, ⟨.rectangular, 2, 2, 20, 20, [], none⟩, ⟨.rectangle, 8, 8⟩,
        ⟨(10, 10), (10, 30)⟩, [(10, 10), (30, 10), (10, 30)]⟩) := by
  have hA : rectangle_from_drawing (square_drawing (K := ℝ) 6 6) =
      some ⟨(10, 10), 8, 8, 0⟩ := by
    norm_num [rectangle_from_drawing, square_drawing, FitzRect.width, FitzRect.height]
  have hB : rectangle_from_drawing (square_drawing (K := ℝ) 26 6) =
      some ⟨(30, 10), 8, 8, 0⟩ := by
    norm_num [rectangle_from_drawing, square_drawing, FitzRect.width, FitzRect.height]
  have hC : rectangle_from_drawing (square_drawing (K := ℝ) 6 26) =
      some ⟨(10, 30), 8, 8, 0⟩ := by
    norm_num [rectangle_from_drawing, square_drawing, FitzRect.width, FitzRect.height]
  have hmed : median [(8 : ℝ), 8, 8] = 8 := by
    norm_num [median, sortByKey, List.insertionSort, List.orderedInsert, List.getD]
  have hcluster : cluster_rows (K := ℝ) (fun r => r.center) (fun r => r.height) (1 / 4) (1 / 2)
      ([⟨(10, 10), 8, 8, 0⟩, ⟨(30, 10), 8, 8, 0⟩, ⟨(10, 30), 8, 8, 0⟩] :
        List (DetectedRectangle ℝ)) =
      [[⟨(10, 10), 8, 8, 0⟩, ⟨(30, 10), 8, 8, 0⟩], [⟨(10, 30), 8, 8, 0⟩]] := by
    rw [cluster_rows]
    norm_num [hmed, sortByKey, List.insertionSort, List.orderedInsert, List.foldl,
      place_rect, mean, abs_le, max_def]
  have hgrid : grid_inference (K := ℝ) (fun r => r.center) (fun r => r.width)
      (fun r => r.height) 612 792
      ([[⟨(10, 10), 8, 8, 0⟩, ⟨(30, 10), 8, 8, 0⟩], [⟨(10, 30), 8, 8, 0⟩]] :
        List (List (DetectedRectangle ℝ))) false =
      .ok (some ⟨⟨612, 792⟩, ⟨.rectangular, 2, 2, 20, 20, [], none⟩, ⟨.rectangle, 8, 8⟩,
        ⟨(10, 10), (10, 30)⟩, [(10, 10), (30, 10), (10, 30)]⟩) := by
    rw [grid_inference]
    norm_num [hmed, flatten_rows, mean, consecutive_differences, median, sortByKey,
      List.insertionSort, List.orderedInsert, List.getD, List.getLastD,
      mkPageMetrics, mkGridMetrics, mkLabelGeometry, mkExtractedTemplate,
      ensure_row_major, row_major_le]
    simp
  show pdf_extract_from_rectangles ⟨0, 0, 612, 792⟩
    (List.filterMap rectangle_from_drawing
      [square_drawing 6 6, square_drawing 26 6, square_drawing 6 26]) = _
  rw [List.filterMap_cons, hA, List.filterMap_cons, hB, List.filterMap_cons, hC,
    List.filterMap_nil]
  simp only [pdf_extract_from_rectangles]
  rw [show FitzRect.width (K := ℝ) ⟨0, 0, 612, 792⟩ = 612 by
    norm_num [FitzRect.width]]
  rw [show FitzRect.height (K := ℝ) ⟨0, 0, 612, 792⟩ = 792 by
    norm_num [FitzRect.height]]
  rw [hcluster, hgrid]

theorem mkExtractedTemplate_ok {page : PageMetrics K} {grid : GridMetrics K}
    {label : LabelGeometry K} {anchors : AnchorPoints K} {centers : List (K × K)}
    {t : ExtractedTemplate K}
    (h : mkExtractedTemplate page grid label anchors centers = .ok t) :
    centers ≠ [] ∧ t = ⟨page, grid, label, anchors, ensure_row_major centers⟩ := by
  unfold mkExtractedTemplate at h
  split at h
  · exact absurd h (by simp)
  · exact ⟨by assumption, by injection h with h2; exact h2.symm⟩

theorem ensure_row_major_sorted (points : List (K × K)) :
    (ensure_row_major points).Sorted row_major_le :=
  List.sorted_insertionSort row_major_le points

theorem ensure_row_major_perm (points : List (K × K)) :
    (ensure_row_major points).Perm points :=
  List.perm_insertionSort row_major_le points

/-- C3 counterexample: the vector detector produces a template with two
ragged rows (2 rows, maximal row length 2, but only 3 centres) and yet
`columns_per_row` is absent, refuting "columns_per_row is present exactly
when the rows are ragged" for detector templates. -/
theorem pdf_extract_ragged_columns_per_row_absent :
    ∃ t : ExtractedTemplate ℝ,
      pdf_extract_template (some ragged_document) 0 true 200 = .ok (some t) ∧
      t.grid.columns_per_row = none ∧
      t.grid.rows = 2 ∧ t.grid.columns = 2 ∧ t.centers_pt.length = 3 :=
  ⟨_, ragged_document_eval, rfl, rfl, rfl, rfl⟩

/-- C9 counterexample: the same ragged vector template has
`columns_per_row` absent while `rows * columns = 4 ≠ 3 = len(centers_pt)`,
refuting "when columns_per_row is absent, rows × columns equals the
number of centres" for detector templates. -/
theorem pdf_extract_ragged_count_mismatch :
    ∃ t : ExtractedTemplate ℝ,
      pdf_extract_template (some ragged_document) 0 true 200 = .ok (some t) ∧
      t.grid.columns_per_row = none ∧
      t.grid.rows * t.grid.columns ≠ t.centers_pt.length :=
  ⟨_, ragged_document_eval, rfl, by norm_num⟩

theorem clamp_columns_le (max_cols : Option ℤ) (raw_columns : ℤ) :
    clamp_columns max_cols raw_columns ≤ raw_columns := by
  rcases max_cols with _ | cap
  · exact le_refl _
  · exact min_le_left _ _

section CircleRowsLemmas

variable [FloorRing K] {close : Bool} {pX pY off sXB mX sY mY : K} {mc mr : Option ℤ}

theorem circle_rows_loop_zero (a b : ℕ) :
    circle_rows_loop close pX pY off sXB mX sY mY mc mr 0 a b = ([], [], []) := rfl

theorem circle_rows_loop_succ (fuel a b : ℕ) :
    circle_rows_loop close pX pY off sXB mX sY mY mc mr (fuel + 1) a b =
      (if mY + EPSILON < sY + (a : K) * pY then ([], [], [])
      else if mX + EPSILON < sXB + offAt close off a then
        circle_rows_loop close pX pY off sXB mX sY mY mc mr fuel (a + 1) b
      else if mX - (sXB + offAt close off a) < -EPSILON then
        circle_rows_loop close pX pY off sXB mX sY mY mc mr fuel (a + 1) b
      else if clamp_columns mc (⌊(mX - (sXB + offAt close off a) + EPSILON) / pX⌋ + 1) ≤ 0 then
        circle_rows_loop close pX pY off sXB mX sY mY mc mr fuel (a + 1) b
      else
        ((List.range (clamp_columns mc
              (⌊(mX - (sXB + offAt close off a) + EPSILON) / pX⌋ + 1)).toNat).map
            (fun column : ℕ => (sXB + offAt close off a + (column : K) * pX,
              sY + (a : K) * pY)) ++
          (if reached_max_rows mr ((b : ℤ) + 1) = true then ([], [], [])
           else circle_rows_loop close pX pY off sXB mX sY mY mc mr fuel (a + 1) (b + 1)).1,
         offAt close off a ::
          (if reached_max_rows mr ((b : ℤ) + 1) = true then ([], [], [])
           else circle_rows_loop close pX pY off sXB mX sY mY mc mr fuel (a + 1) (b + 1)).2.1,
         (clamp_columns mc (⌊(mX - (sXB + offAt close off a) + EPSILON) / pX⌋ + 1)).toNat ::
          (if reached_max_rows mr ((b : ℤ) + 1) = true then ([], [], [])
           else circle_rows_loop close pX pY off sXB mX sY mY mc mr fuel
             (a + 1) (b + 1)).2.2)) := rfl

theorem circle_rows_loop_mem {fuel a b : ℕ} {p : K × K}
    (hp : p ∈ (circle_rows_loop close pX pY off sXB mX sY mY mc mr fuel a b).1) :
    ∃ r c : ℕ, a ≤ r ∧
      sY + (r : K) * pY ≤ mY + EPSILON ∧
      sXB + offAt close off r ≤ mX + EPSILON ∧
      (c : ℤ) ≤ ⌊(mX - (sXB + offAt close off r) + EPSILON) / pX⌋ ∧
      p = (sXB + offAt close off r + (c : K) * pX, sY + (r : K) * pY) := by
  induction fuel generalizing a b with
  | zero => simp [circle_rows_loop] at hp
  | succ fuel ih =>
    have weaken : ∀ {a' b' : ℕ}, a ≤ a' →
        p ∈ (circle_rows_loop close pX pY off sXB mX sY mY mc mr fuel a' b').1 →
        ∃ r c : ℕ, a ≤ r ∧
          sY + (r : K) * pY ≤ mY + EPSILON ∧
          sXB + offAt close off r ≤ mX + EPSILON ∧
          (c : ℤ) ≤ ⌊(mX - (sXB + offAt close off r) + EPSILON) / pX⌋ ∧
          p = (sXB + offAt close off r + (c : K) * pX, sY + (r : K) * pY) := by
      intro a' b' ha' hp'
      obtain ⟨r, c, hr, hrest⟩ := ih hp'
      exact ⟨r, c, le_trans ha' hr, hrest⟩
    simp only [circle_rows_loop] at hp
    split at hp
    · simp at hp
    · next h1 =>
      split at hp
      · exact weaken (Nat.le_succ a) hp
      · next h2 =>
        split at hp
        · exact weaken (Nat.le_succ a) hp
        · next h3 =>
          split at hp
          · exact weaken (Nat.le_succ a) hp
          · next h4 =>
            rcases List.mem_append.mp hp with hmem | hmem
            · obtain ⟨col, hcol, hpeq⟩ := List.mem_map.mp hmem
              rw [List.mem_range] at hcol
              refine ⟨a, col, le_refl a, not_lt.mp h1, not_lt.mp h2, ?_, hpeq.symm⟩
              have hraw_le := clamp_columns_le mc
                (⌊(mX - (sXB + offAt close off a) + EPSILON) / pX⌋ + 1)
              omega
            · split at hmem
              · simp at hmem
              · exact weaken (Nat.le_succ a) hmem

theorem circle_rows_loop_counts (fuel a b : ℕ) :
    (circle_rows_loop close pX pY off sXB mX sY mY mc mr fuel a b).1.length =
      (circle_rows_loop close pX pY off sXB mX sY mY mc mr fuel a b).2.2.sum ∧
    (circle_rows_loop close pX pY off sXB mX sY mY mc mr fuel a b).2.1.length =
      (circle_rows_loop close pX pY off sXB mX sY mY mc mr fuel a b).2.2.length ∧
    ∀ n ∈ (circle_rows_loop close pX pY off sXB mX sY mY mc mr fuel a b).2.2, 0 < n := by
  induction fuel generalizing a b with
  | zero => simp [circle_rows_loop_zero]
  | succ fuel ih =>
    rw [circle_rows_loop_succ]
    split
    · simp
    · split
      · exact ih _ _
      · split
        · exact ih _ _
        · split
          · exact ih _ _
          · next h4 =>
            split
            · refine ⟨by simp, by simp, ?_⟩
              intro n hn
              rw [List.mem_cons] at hn
              rcases hn with rfl | hn
              · omega
              · simp at hn
            · obtain ⟨hlen, hoff, hpos⟩ := ih (a + 1) (b + 1)
              refine ⟨by simp [hlen], by simp [hoff], ?_⟩
              intro n hn
              rw [List.mem_cons] at hn
              rcases hn with rfl | hn
              · omega
              · exact hpos n hn

theorem circle_rows_loop_fuel_irrelevant (hpY : 0 < pY) {fuel a b : ℕ}
    (hfuel : circle_rows_fuel pY sY mY ≤ a + fuel) :
    circle_rows_loop close pX pY off sXB mX sY mY mc mr (fuel + 1) a b =
      circle_rows_loop close pX pY off sXB mX sY mY mc mr fuel a b := by
  induction fuel generalizing a b with
  | zero =>
    have hceil : (⌈(mY + EPSILON - sY) / pY⌉).toNat + 1 ≤ a := by
      simpa [circle_rows_fuel] using hfuel
    have hy : mY + EPSILON < sY + (a : K) * pY := by
      have hq : (mY + EPSILON - sY) / pY < (a : K) := by
        have h1 : (mY + EPSILON - sY) / pY ≤ (⌈(mY + EPSILON - sY) / pY⌉ : K) :=
          Int.le_ceil _
        have h2 : (⌈(mY + EPSILON - sY) / pY⌉ : ℤ) < (a : ℤ) := by omega
        calc (mY + EPSILON - sY) / pY ≤ (⌈(mY + EPSILON - sY) / pY⌉ : K) := h1
          _ < (a : K) := by exact_mod_cast Int.cast_lt.mpr h2
      have := (div_lt_iff hpY).mp hq
      linarith
    rw [circle_rows_loop_succ, if_pos hy, circle_rows_loop_zero]
  | succ fuel ih =>
    rw [circle_rows_loop_succ]
    conv_rhs => rw [circle_rows_loop_succ]
    by_cases h1 : mY + EPSILON < sY + (a : K) * pY
    · rw [if_pos h1, if_pos h1]
    · rw [if_neg h1, if_neg h1]
      by_cases h2 : mX + EPSILON < sXB + offAt close off a
      · rw [if_pos h2, if_pos h2]
        exact ih (by omega)
      · rw [if_neg h2, if_neg h2]
        by_cases h3 : mX - (sXB + offAt close off a) < -EPSILON
        · rw [if_pos h3, if_pos h3]
          exact ih (by omega)
        · rw [if_neg h3, if_neg h3]
          by_cases h4 : clamp_columns mc
              (⌊(mX - (sXB + offAt close off a) + EPSILON) / pX⌋ + 1) ≤ 0
          · rw [if_pos h4, if_pos h4]
            exact ih (by omega)
          · rw [if_neg h4, if_neg h4]
            by_cases h5 : reached_max_rows mr ((b : ℤ) + 1) = true
            · rw [if_pos h5, if_pos h5]
            · rw [if_neg h5, if_neg h5, ih (by omega)]

theorem offAt_nonneg (hoff : 0 ≤ off) (r : ℕ) : 0 ≤ offAt close off r := by
  unfold offAt
  split
  · exact hoff
  · exact le_refl 0

theorem nat_cast_sub_sq_ge_one {c c' : ℕ} (h : c ≠ c') : (1 : K) ≤ ((c : K) - c') ^ 2 := by
  have hz : (c : ℤ) - c' ≠ 0 := by omega
  have h1 : (1 : ℤ) ≤ ((c : ℤ) - c') ^ 2 := by
    nlinarith [Int.one_le_abs hz, sq_abs ((c : ℤ) - c'), abs_nonneg ((c : ℤ) - c')]
  calc (1 : K) = ((1 : ℤ) : K) := by norm_num
    _ ≤ ((((c : ℤ) - c') ^ 2 : ℤ) : K) := by exact_mod_cast h1
    _ = ((c : K) - c') ^ 2 := by push_cast; ring

theorem odd_int_cast_sq_ge_one (n : ℤ) : (1 : K) ≤ (2 * (n : K) + 1) ^ 2 := by
  have h1 : (1 : ℤ) ≤ (2 * n + 1) ^ 2 := by
    nlinarith [Int.one_le_abs (show 2 * n + 1 ≠ 0 by omega), sq_abs (2 * n + 1),
      abs_nonneg (2 * n + 1)]
  calc (1 : K) = ((1 : ℤ) : K) := by norm_num
    _ ≤ (((2 * n + 1) ^ 2 : ℤ) : K) := by exact_mod_cast h1
    _ = (2 * (n : K) + 1) ^ 2 := by push_cast; ring

set_option maxHeartbeats 1000000 in
/-- Squared distance between two lattice positions in distinct rows is
at least `pitch_x ^ 2`, for both supported layouts. -/
theorem lattice_cross_row_dist
    (hpX : 0 < pX) (hpY : 0 < pY)
    (hclose : close = true → off = pX / 2 ∧ pY ^ 2 = 3 * pX ^ 2 / 4)
    (hsimple : close = false → pX ≤ pY)
    {r r' c c' : ℕ} (hrr : r < r') :
    pX ^ 2 ≤
      ((sXB + offAt close off r + (c : K) * pX) -
        (sXB + offAt close off r' + (c' : K) * pX)) ^ 2 +
      ((sY + (r : K) * pY) - (sY + (r' : K) * pY)) ^ 2 := by
  have hm1 : (1 : K) ≤ (r' : K) - r := by
    have h : r + 1 ≤ r' := hrr
    have h2 : ((r + 1 : ℕ) : K) ≤ ((r' : ℕ) : K) := Nat.cast_le.mpr h
    push_cast at h2
    linarith
  have hy2 : ((sY + (r : K) * pY) - (sY + (r' : K) * pY)) ^ 2 =
      ((r' : K) - r) ^ 2 * pY ^ 2 := by ring
  cases close with
  | false =>
    have hxy : pX ≤ pY := hsimple rfl
    have hoffr : offAt false off r = 0 := by simp [offAt]
    have hoffr' : offAt false off r' = 0 := by simp [offAt]
    rw [hoffr, hoffr', hy2]
    have h1 : pX ^ 2 ≤ pY ^ 2 := by nlinarith
    have hd : (1 : K) ≤ ((r' : K) - r) ^ 2 := by
      nlinarith [hm1, sq_nonneg ((r' : K) - r - 1)]
    have h2 : pY ^ 2 ≤ ((r' : K) - r) ^ 2 * pY ^ 2 := by
      have := mul_le_mul_of_nonneg_right hd (sq_nonneg pY)
      linarith
    linarith [sq_nonneg ((sXB + 0 + (c : K) * pX) - (sXB + 0 + (c' : K) * pX))]
  | true =>
    obtain ⟨hoff, hpy2⟩ := hclose rfl
    subst hoff
    rcases Nat.even_or_odd (r' - r) with hme | hmo
    · -- even row gap: vertical separation alone is at least √3·pitch_x
      have hm2 : (2 : K) ≤ (r' : K) - r := by
        rw [Nat.even_iff] at hme
        have h : r + 2 ≤ r' := by omega
        have h2 : ((r + 2 : ℕ) : K) ≤ ((r' : ℕ) : K) := Nat.cast_le.mpr h
        push_cast at h2
        linarith
      rw [hy2]
      have hd4 : (4 : K) ≤ ((r' : K) - r) ^ 2 := by
        nlinarith [hm2, sq_nonneg ((r' : K) - r - 2)]
      have h5 : 4 * pY ^ 2 ≤ ((r' : K) - r) ^ 2 * pY ^ 2 := by
        have := mul_le_mul_of_nonneg_right hd4 (sq_nonneg pY)
        linarith
      linarith [sq_nonneg ((sXB + offAt true (pX / 2) r + (c : K) * pX) -
          (sXB + offAt true (pX / 2) r' + (c' : K) * pX)), sq_nonneg pX]
    · -- odd row gap: offsets differ by pitch_x/2, so the horizontal
      -- separation is at least pitch_x/2 and the vertical one pitch_y
      have hparity : r % 2 ≠ r' % 2 := by
        rw [Nat.odd_iff] at hmo
        omega
      have hd : (1 : K) ≤ ((r' : K) - r) ^ 2 := by
        nlinarith [hm1, sq_nonneg ((r' : K) - r - 1)]
      have hysum : 3 * pX ^ 2 / 4 ≤ ((sY + (r : K) * pY) - (sY + (r' : K) * pY)) ^ 2 := by
        rw [hy2]
        have h := mul_le_mul_of_nonneg_right hd (sq_nonneg pY)
        rw [one_mul] at h
        linarith
      have hx : ∃ n : ℤ, ((sXB + offAt true (pX / 2) r + (c : K) * pX) -
          (sXB + offAt true (pX / 2) r' + (c' : K) * pX)) = (2 * (n : K) + 1) * (pX / 2) ∨
          ((sXB + offAt true (pX / 2) r + (c : K) * pX) -
          (sXB + offAt true (pX / 2) r' + (c' : K) * pX)) = -((2 * (n : K) + 1) * (pX / 2)) := by
        rcases Nat.even_or_odd r with hre | hro
        · have hr0 : r % 2 = 0 := Nat.even_iff.mp hre
          have hr1 : r' % 2 = 1 := by omega
          refine ⟨(c' : ℤ) - c, Or.inr ?_⟩
          have hoffr : offAt true (pX / 2) r = 0 := by simp [offAt, hr0]
          have hoffr' : offAt true (pX / 2) r' = pX / 2 := by simp [offAt, hr1]
          rw [hoffr, hoffr']
          push_cast
          ring
        · have hr1 : r % 2 = 1 := Nat.odd_iff.mp hro
          have hr0 : r' % 2 = 0 := by omega
          refine ⟨(c : ℤ) - c', Or.inl ?_⟩
          have hoffr : offAt true (pX / 2) r = pX / 2 := by simp [offAt, hr1]
          have hoffr' : offAt true (pX / 2) r' = 0 := by simp [offAt, hr0]
          rw [hoffr, hoffr']
          push_cast
          ring
      obtain ⟨n, hxeq | hxeq⟩ := hx
      all_goals {
        have hodd := odd_int_cast_sq_ge_one (K := K) n
        have hxbound : pX ^ 2 / 4 ≤ ((2 * (n : K) + 1) * (pX / 2)) ^ 2 := by
          have h := mul_le_mul_of_nonneg_right hodd (sq_nonneg (pX / 2))
          calc pX ^ 2 / 4 = 1 * (pX / 2) ^ 2 := by ring
            _ ≤ (2 * (n : K) + 1) ^ 2 * (pX / 2) ^ 2 := h
            _ = ((2 * (n : K) + 1) * (pX / 2)) ^ 2 := by ring
        rw [hxeq]
        first
        | linarith [hxbound, hysum]
        | (rw [neg_sq]; linarith [hxbound, hysum])
      }

/-- All centre pairs emitted by the row loop are at squared distance at
least `pitch_x ^ 2`, for both supported layouts. -/
theorem circle_rows_loop_pairwise
    (hpX : 0 < pX) (hpY : 0 < pY)
    (hclose : close = true → off = pX / 2 ∧ pY ^ 2 = 3 * pX ^ 2 / 4)
    (hsimple : close = false → pX ≤ pY)
    (fuel a b : ℕ) :
    ((circle_rows_loop close pX pY off sXB mX sY mY mc mr fuel a b).1).Pairwise
      (fun p q => pX ^ 2 ≤ (p.1 - q.1) ^ 2 + (p.2 - q.2) ^ 2) := by
  induction fuel generalizing a b with
  | zero => simp [circle_rows_loop_zero]
  | succ fuel ih =>
    rw [circle_rows_loop_succ]
    split
    · simp
    · split
      · exact ih _ _
      · split
        · exact ih _ _
        · split
          · exact ih _ _
          · refine List.pairwise_append.mpr ⟨?_, ?_, ?_⟩
            · rw [List.pairwise_map]
              refine (List.pairwise_lt_range _).imp ?_
              intro col col' hcc
              have h1 := nat_cast_sub_sq_ge_one (K := K) (Nat.ne_of_lt hcc)
              have h2 := mul_le_mul_of_nonneg_right h1 (sq_nonneg pX)
              dsimp only
              nlinarith [h2]
            · split
              · simp
              · exact ih _ _
            · intro p hp q hq
              obtain ⟨col, hcolmem, rfl⟩ := List.mem_map.mp hp
              have hq' : q ∈ (circle_rows_loop close pX pY off sXB mX sY mY mc mr
                  fuel (a + 1) (b + 1)).1 := by
                revert hq
                split
                · intro hq
                  simp at hq
                · exact fun hq => hq
              obtain ⟨r', c', hr', _, _, _, rfl⟩ := circle_rows_loop_mem hq'
              exact lattice_cross_row_dist hpX hpY hclose hsimple
                (Nat.lt_of_lt_of_le (Nat.lt_succ_self a) hr')

theorem circle_rows_loop_bounds (hpX : 0 < pX) (hpY : 0 < pY) (hoff : 0 ≤ off)
    {fuel a b : ℕ} {p : K × K}
    (hp : p ∈ (circle_rows_loop close pX pY off sXB mX sY mY mc mr fuel a b).1) :
    sXB ≤ p.1 ∧ p.1 ≤ mX + EPSILON ∧ sY ≤ p.2 ∧ p.2 ≤ mY + EPSILON := by
  obtain ⟨r, c, hr, hy, hxs, hc, rfl⟩ := circle_rows_loop_mem hp
  have hoffr : 0 ≤ offAt close off r := offAt_nonneg hoff r
  have hcK : (c : K) ≤ (mX - (sXB + offAt close off r) + EPSILON) / pX := by
    have h : ((c : ℤ) : K) ≤ (mX - (sXB + offAt close off r) + EPSILON) / pX :=
      Int.le_floor.mp hc
    exact_mod_cast h
  refine ⟨?_, ?_, ?_, ?_⟩
  · have : 0 ≤ (c : K) * pX := mul_nonneg (Nat.cast_nonneg c) (le_of_lt hpX)
    simp only
    linarith
  · have h := (le_div_iff hpX).mp hcK
    simp only
    linarith
  · have : 0 ≤ (r : K) * pY := mul_nonneg (Nat.cast_nonneg r) (le_of_lt hpY)
    simp only
    linarith
  · simpa using hy

end CircleRowsLemmas

theorem EPSILON_pos : (0 : K) < EPSILON := by
  norm_num [EPSILON]

theorem circle_lattice_parameters_ok {sqrt3 : K} {layout : Layout} {d g : K}
    {lat : CircleLattice K}
    (h : circle_lattice_parameters sqrt3 layout d g = .ok lat) :
    0 < d ∧ 0 ≤ g ∧
      (layout = .simple → lat = ⟨d + g, d + g, 0⟩) ∧
      (layout = .close → lat = ⟨d + g, sqrt3 * (d + g) / 2, (d + g) / 2⟩) := by
  unfold circle_lattice_parameters at h
  split at h
  · exact absurd h (by simp)
  next hd =>
    split at h
    · exact absurd h (by simp)
    next hg =>
      refine ⟨not_le.mp hd, not_lt.mp hg, ?_, ?_⟩
      all_goals intro hl
      all_goals subst hl
      all_goals injection h with h
      all_goals exact h.symm

theorem validate_margins_ok {m m' : K × K × K × K} (h : validate_margins m = .ok m') :
    m' = m ∧ 0 ≤ m.1 ∧ 0 ≤ m.2.1 ∧ 0 ≤ m.2.2.1 ∧ 0 ≤ m.2.2.2 := by
  unfold validate_margins at h
  split at h
  · exact absurd h (by simp)
  next hneg =>
    push_neg at hneg
    injection h with h
    exact ⟨h.symm, hneg.1, hneg.2.1, hneg.2.2.1, hneg.2.2.2⟩

theorem generate_circle_centres_ok [FloorRing K] {sqrt3 : K} {layout : Layout}
    {pw ph d : K} {margin : K × K × K × K} {g : K} {mcols mrows : Option ℤ}
    {out : List (K × K) × List K × List ℕ}
    (h : generate_circle_centres sqrt3 layout pw ph d margin g mcols mrows = .ok out) :
    ∃ lat, circle_lattice_parameters sqrt3 layout d g = .ok lat ∧
      0 ≤ margin.1 ∧ 0 ≤ margin.2.1 ∧ 0 ≤ margin.2.2.1 ∧ 0 ≤ margin.2.2.2 ∧
      0 < pw ∧ 0 < ph ∧
      out = circle_rows_loop (decide (layout = Layout.close)) lat.pitch_x_pt lat.pitch_y_pt
        lat.row_offset_pt (margin.2.2.2 + d / 2) (pw - margin.2.1 - d / 2)
        (margin.1 + d / 2) (ph - margin.2.2.1 - d / 2) mcols mrows
        (circle_rows_fuel lat.pitch_y_pt (margin.1 + d / 2) (ph - margin.2.2.1 - d / 2))
        0 0 ∧
      out.1 ≠ [] := by
  unfold generate_circle_centres at h
  split at h
  · exact absurd h (by simp)
  next lat hlat =>
    split at h
    · exact absurd h (by simp)
    next margins hmargins =>
      obtain ⟨hmeq, hm1, hm2, hm3, hm4⟩ := validate_margins_ok hmargins
      subst hmeq
      split at h
      · exact absurd h (by simp)
      next hpw =>
        split at h
        · exact absurd h (by simp)
        next hph =>
          split at h
          · exact absurd h (by simp)
          next =>
            split at h
            · exact absurd h (by simp)
            next =>
              dsimp only at h
              split at h
              · exact absurd h (by simp)
              next hu1 =>
                split at h
                · exact absurd h (by simp)
                next hu2 =>
                  split at h
                  · exact absurd h (by simp)
                  next hcentres =>
                    injection h with h
                    refine ⟨lat, hlat, hm1, hm2, hm3, hm4,
                      not_le.mp hpw, not_le.mp hph, h.symm, ?_⟩
                    rw [← h]
                    exact hcentres

theorem usable_extent_ok {page a b d u : K} (h : usable_extent page a b d = .ok u) :
    ¬ page - a - b < d - EPSILON ∧ u = page - a - b := by
  unfold usable_extent at h
  dsimp only at h
  split at h
  · exact absurd h (by simp)
  next hc =>
    injection h with h
    exact ⟨hc, h.symm⟩

theorem generate_circle_centres_ok_usable [FloorRing K] {sqrt3 : K} {layout : Layout}
    {pw ph d : K} {margin : K × K × K × K} {g : K} {mcols mrows : Option ℤ}
    {out : List (K × K) × List K × List ℕ}
    (h : generate_circle_centres sqrt3 layout pw ph d margin g mcols mrows = .ok out) :
    ¬ pw - margin.2.2.2 - margin.2.1 < d - EPSILON ∧
    ¬ ph - margin.1 - margin.2.2.1 < d - EPSILON := by
  unfold generate_circle_centres at h
  split at h
  · exact absurd h (by simp)
  next lat hlat =>
    split at h
    · exact absurd h (by simp)
    next margins hmargins =>
      obtain ⟨hmeq, -, -, -, -⟩ := validate_margins_ok hmargins
      subst hmeq
      split at h
      · exact absurd h (by simp)
      split at h
      · exact absurd h (by simp)
      split at h
      · exact absurd h (by simp)
      split at h
      · exact absurd h (by simp)
      dsimp only at h
      split at h
      · exact absurd h (by simp)
      next u1 hu1 =>
        split at h
        · exact absurd h (by simp)
        next u2 hu2 =>
          exact ⟨(usable_extent_ok hu1).1, (usable_extent_ok hu2).1⟩

theorem mkGridMetrics_ok_fields {kind : GridKind} {rows columns : ℕ} {dx dy : K}
    {offs : List K} {cpr : Option (List ℕ)} {grid : GridMetrics K}
    (h : mkGridMetrics kind rows columns dx dy offs cpr = .ok grid) :
    grid = ⟨kind, rows, columns, dx, dy, offs, cpr⟩ ∧
    ∀ l, cpr = some l → l.length = rows := by
  unfold mkGridMetrics at h
  split at h
  · exact absurd h (by simp)
  split at h
  · exact absurd h (by simp)
  split at h
  · exact absurd h (by simp)
  split at h
  next cprl =>
    split at h
    · exact absurd h (by simp)
    next hlen =>
      split at h
      · exact absurd h (by simp)
      injection h with h
      refine ⟨h.symm, ?_⟩
      intro l hl
      injection hl with hl
      subst hl
      exact not_ne_iff.mp hlen
  next =>
    injection h with h
    exact ⟨h.symm, fun l hl => absurd hl (by simp)⟩

theorem grid_metadata_ok_fields {layout : Layout} {lat : CircleLattice K}
    {counts : List ℕ} {offs : List K} {grid : GridMetrics K}
    (h : grid_metadata layout lat counts offs = .ok grid) :
    grid.rows = counts.length ∧ grid.columns = counts.foldr max 0 ∧
    grid.columns_per_row =
      (if counts.all (fun value => value = counts.foldr max 0) then none
       else some counts) := by
  unfold grid_metadata at h
  dsimp only at h
  obtain ⟨hg, -⟩ := mkGridMetrics_ok_fields h
  subst hg
  exact ⟨rfl, rfl, rfl⟩

theorem sum_of_uniform {l : List ℕ} {m : ℕ} (h : ∀ x ∈ l, x = m) :
    l.sum = l.length * m := by
  rw [List.sum_eq_card_nsmul l m h]
  simp

theorem grid_inference_some {α : Type} {center : α → K × K} {width height : α → K}
    {pw ph : K} {rows : List (List α)} {b : Bool} {t : ExtractedTemplate K}
    (h : grid_inference center width height pw ph rows b = .ok (some t)) :
    t.grid.rows = rows.length ∧
    t.grid.columns = (rows.map List.length).foldr max 0 ∧
    t.grid.columns_per_row = (if b then some (rows.map List.length) else none) ∧
    t.centers_pt.length = (rows.map List.length).sum := by
  unfold grid_inference at h
  split at h
  · exact absurd h (by simp)
  dsimp only at h
  split at h
  · exact absurd h (by simp)
  next page hpage =>
    split at h
    · exact absurd h (by simp)
    next gm hgm =>
      split at h
      · exact absurd h (by simp)
      next lbl hlbl =>
        split at h
        · exact absurd h (by simp)
        next templ hmk =>
          injection h with h
          injection h with h
          subst h
          obtain ⟨hne, htempl⟩ := mkExtractedTemplate_ok hmk
          obtain ⟨hgm', -⟩ := mkGridMetrics_ok_fields hgm
          subst htempl
          subst hgm'
          refine ⟨rfl, rfl, rfl, ?_⟩
          dsimp only
          rw [(ensure_row_major_perm _).length_eq, List.length_map, flatten_rows,
            List.length_flatten]

theorem pairwise_overlap_check_ok {minD : K} {l : List (K × K)}
    (h : l.Pairwise (fun p q => hypot_lt (q.1 - p.1) (q.2 - p.2) minD = false)) :
    pairwise_overlap_check minD l = .ok () := by
  induction l with
  | nil => rfl
  | cons c rest ih =>
    rw [List.pairwise_cons] at h
    rw [pairwise_overlap_check, if_neg, ih h.2]
    intro hany
    rw [List.any_eq_true] at hany
    obtain ⟨c2, hc2, hviol⟩ := hany
    rw [h.1 c2 hc2] at hviol
    exact absurd hviol (by simp)

theorem validate_circle_constraints_ok {t : ExtractedTemplate K} {m : K × K × K × K}
    (hbounds : ∀ c ∈ t.centers_pt,
      m.2.2.2 + t.label.width_pt / 2 - EPSILON ≤ c.1 ∧
      c.1 ≤ t.page.width_pt - m.2.1 - t.label.width_pt / 2 + EPSILON ∧
      m.1 + t.label.width_pt / 2 - EPSILON ≤ c.2 ∧
      c.2 ≤ t.page.height_pt - m.2.2.1 - t.label.width_pt / 2 + EPSILON)
    (hpair : t.centers_pt.Pairwise (fun p q =>
      hypot_lt (q.1 - p.1) (q.2 - p.2) (t.label.width_pt - EPSILON) = false)) :
    validate_circle_constraints t m = .ok () := by
  unfold validate_circle_constraints LabelGeometry.diameter_pt
  rw [if_neg, pairwise_overlap_check_ok hpair]
  intro hany
  rw [List.any_eq_true] at hany
  obtain ⟨c, hc, hviol⟩ := hany
  obtain ⟨h1, h2, h3, h4⟩ := hbounds c hc
  simp only [Bool.not_eq_true', decide_eq_false_iff_not] at hviol
  exact hviol ⟨h1, h2, h3, h4⟩

/-- `hypot(dx, dy) < minD` is false whenever the squared distance is at
least `base ^ 2` for some `base` exceeding `minD`. -/
theorem hypot_lt_eq_false {dx dy minD base : K}
    (hsq : base ^ 2 ≤ dx ^ 2 + dy ^ 2) (hlt : minD < base) :
    hypot_lt dx dy minD = false := by
  unfold hypot_lt
  rw [if_neg]
  rintro ⟨hpos, hsqlt⟩
  have : minD ^ 2 < base ^ 2 := by nlinarith
  linarith

theorem mkPageMetrics_ok {w h : K} {page : PageMetrics K}
    (hp : mkPageMetrics w h = .ok page) : page = ⟨w, h⟩ ∧ 0 < w ∧ 0 < h := by
  unfold mkPageMetrics at hp
  split at hp
  · exact absurd hp (by simp)
  next hcond =>
    push_neg at hcond
    injection hp with hp
    exact ⟨hp.symm, hcond.1, hcond.2⟩

theorem mkLabelGeometry_ok {shape : LabelShape} {w h : K} {label : LabelGeometry K}
    (hl : mkLabelGeometry shape w h = .ok label) :
    label = ⟨shape, w, h⟩ ∧ 0 < w ∧ 0 < h := by
  unfold mkLabelGeometry at hl
  split at hl
  · exact absurd hl (by simp)
  next hcond =>
    push_neg at hcond
    split at hl
    · exact absurd hl (by simp)
    · injection hl with hl
      exact ⟨hl.symm, hcond.1, hcond.2⟩

/-- Inversion of a successful `synthesize_circles` call: all pipeline
stages succeeded and determine the template's fields. -/
theorem synthesize_circles_ok [FloorRing K] {sqrt3 : K} {layout : Layout}
    {pw ph d : K} {margin : K × K × K × K} {g : K} {mcols mrows : Option ℤ}
    {t : ExtractedTemplate K}
    (h : synthesize_circles sqrt3 layout pw ph d margin g mcols mrows = .ok t) :
    ∃ lat result grid,
      circle_lattice_parameters sqrt3 layout d g = .ok lat ∧
      generate_circle_centres sqrt3 layout pw ph d margin g mcols mrows = .ok result ∧
      grid_metadata layout lat result.2.2 result.2.1 = .ok grid ∧
      validate_circle_constraints t margin = .ok () ∧
      t.page = ⟨pw, ph⟩ ∧
      t.label = ⟨.circle, d, d⟩ ∧
      t.grid = grid ∧
      t.centers_pt = ensure_row_major result.1 ∧
      result.1 ≠ [] := by
  unfold synthesize_circles at h
  split at h
  · exact absurd h (by simp)
  next lattice hlat =>
    split at h
    · exact absurd h (by simp)
    next result hgen =>
      dsimp only at h
      split at h
      · exact absurd h (by simp)
      next grid hgrid =>
        split at h
        · exact absurd h (by simp)
        next page hpage =>
          split at h
          · exact absurd h (by simp)
          next label hlabel =>
            split at h
            · exact absurd h (by simp)
            next template hmk =>
              split at h
              · exact absurd h (by simp)
              next u hval =>
                injection h with h
                subst h
                obtain ⟨hnempty, htempl⟩ := mkExtractedTemplate_ok hmk
                obtain ⟨hpageval, _, _⟩ := mkPageMetrics_ok hpage
                obtain ⟨hlabelval, _, _⟩ := mkLabelGeometry_ok hlabel
                subst hpageval
                subst hlabelval
                refine ⟨lattice, result, grid, hlat, hgen, hgrid, ?_, ?_, ?_, ?_, ?_, hnempty⟩
                · cases u
                  exact hval
                · rw [htempl]
                · rw [htempl]
                · rw [htempl]
                · rw [htempl]

set_option maxHeartbeats 1000000 in
/-- C2: for every template returned by the circle-lattice synthesizer
(any layout, page size, diameter, gap, margins and caps for which it
succeeds), the Euclidean distance between any two distinct centres is at
least `diameter + gap - ε`. -/
theorem synthesize_circles_min_pairwise_distance
    (layout : Layout) (pw ph d : ℝ) (margin : ℝ × ℝ × ℝ × ℝ) (g : ℝ)
    (mcols mrows : Option ℤ) (t : ExtractedTemplate ℝ)
    (h : synthesize_circles (Real.sqrt 3) layout pw ph d margin g mcols mrows = .ok t) :
    ∀ p ∈ t.centers_pt, ∀ q ∈ t.centers_pt, p ≠ q →
      d + g - EPSILON ≤ Real.sqrt ((p.1 - q.1) ^ 2 + (p.2 - q.2) ^ 2) := by
  unfold synthesize_circles at h
  split at h
  · exact absurd h (by simp)
  next lattice hlat =>
    split at h
    · exact absurd h (by simp)
    next result hgen =>
      dsimp only at h
      split at h
      · exact absurd h (by simp)
      next grid hgrid =>
        split at h
        · exact absurd h (by simp)
        next page hpage =>
          split at h
          · exact absurd h (by simp)
          next label hlabel =>
            split at h
            · exact absurd h (by simp)
            next template hmk =>
              split at h
              · exact absurd h (by simp)
              next hval =>
                injection h with h
                subst h
                obtain ⟨hnempty, htempl⟩ := mkExtractedTemplate_ok hmk
                obtain ⟨hd, hg, hlatvalS, hlatvalC⟩ := circle_lattice_parameters_ok hlat
                obtain ⟨lat2, hlat2, hm1, hm2, hm3, hm4, hpw, hph, hout, _⟩ :=
                  generate_circle_centres_ok hgen
                rw [hlat] at hlat2
                injection hlat2 with hlat2
                subst hlat2
                have hpX : (0 : ℝ) < d + g := by linarith
                have hpair : result.1.Pairwise (fun p q : ℝ × ℝ =>
                    (d + g) ^ 2 ≤ (p.1 - q.1) ^ 2 + (p.2 - q.2) ^ 2) := by
                  cases layout with
                  | simple =>
                    obtain rfl := hlatvalS rfl
                    rw [hout]
                    dsimp only
                    exact circle_rows_loop_pairwise hpX hpX (by simp)
                      (fun _ => le_refl _) _ 0 0
                  | close =>
                    obtain rfl := hlatvalC rfl
                    rw [hout]
                    dsimp only
                    have h3 : Real.sqrt 3 ^ 2 = 3 := Real.sq_sqrt (by norm_num)
                    have hpY : (0 : ℝ) < Real.sqrt 3 * (d + g) / 2 := by
                      have := Real.sqrt_pos.mpr (show (0 : ℝ) < 3 by norm_num)
                      positivity
                    refine circle_rows_loop_pairwise hpX hpY ?_ (by simp) _ 0 0
                    intro _
                    refine ⟨rfl, ?_⟩
                    calc (Real.sqrt 3 * (d + g) / 2) ^ 2
                        = Real.sqrt 3 ^ 2 * (d + g) ^ 2 / 4 := by ring
                      _ = 3 * (d + g) ^ 2 / 4 := by rw [h3]
                have hsymm : Symmetric (fun p q : ℝ × ℝ =>
                    (d + g) ^ 2 ≤ (p.1 - q.1) ^ 2 + (p.2 - q.2) ^ 2) := by
                  intro x y hxy
                  have heq : (x.1 - y.1) ^ 2 + (x.2 - y.2) ^ 2 =
                      (y.1 - x.1) ^ 2 + (y.2 - x.2) ^ 2 := by ring
                  linarith
                have hpairT : template.centers_pt.Pairwise (fun p q : ℝ × ℝ =>
                    (d + g) ^ 2 ≤ (p.1 - q.1) ^ 2 + (p.2 - q.2) ^ 2) := by
                  rw [htempl]
                  exact hpair.perm (ensure_row_major_perm result.1).symm
                    (fun hxy => hsymm hxy)
                intro p hp q hq hne2
                have hR := hpairT.forall hsymm hp hq hne2
                rcases le_or_lt (d + g - EPSILON) 0 with hle | hpos
                · exact le_trans hle (Real.sqrt_nonneg _)
                · rw [Real.le_sqrt (le_of_lt hpos) (by positivity)]
                  have heps := EPSILON_pos (K := ℝ)
                  nlinarith [hR]

set_option maxHeartbeats 2000000 in
theorem synthesize_unit_circle_eval :
    synthesize_circles (Real.sqrt 3) .simple 1 1 1 (0, 0, 0, 0) 0 none none =
      .ok ⟨⟨1, 1⟩, ⟨.circle_simple, 1, 1, 1, 1, [0], none⟩, ⟨.circle, 1, 1⟩,
        ⟨(1 / 2, 1 / 2), (1 / 2, 1 / 2)⟩, [(1 / 2, 1 / 2)]⟩ := by
  have hceil : ⌈(1 / 1000000000 : ℝ)⌉ = 1 := by
    rw [Int.ceil_eq_iff] <;> norm_num
  have hfloor : ⌊(1 / 1000000000 : ℝ)⌋ = 0 := by
    rw [Int.floor_eq_iff] <;> norm_num
  norm_num [synthesize_circles, generate_circle_centres, circle_lattice_parameters,
    validate_margins, usable_extent, circle_rows_fuel, circle_rows_loop, offAt,
    clamp_columns, reached_max_rows, grid_metadata, mkGridMetrics, mkPageMetrics,
    mkLabelGeometry, mkExtractedTemplate, ensure_row_major, List.insertionSort,
    List.orderedInsert, validate_circle_constraints, LabelGeometry.diameter_pt,
    pairwise_overlap_check, hypot_lt, EPSILON, hceil, hfloor, List.range_succ,
    cap_nonpositive, List.foldr, List.dropLast, List.headD, List.getD, Option.getD,
    row_major_le]

theorem synthesize_circles_min_pairwise_distance_witness :
    ∃ t : ExtractedTemplate ℝ,
      synthesize_circles (Real.sqrt 3) .simple 1 1 1 (0, 0, 0, 0) 0 none none = .ok t ∧
      ∀ p ∈ t.centers_pt, ∀ q ∈ t.centers_pt, p ≠ q →
        1 + 0 - EPSILON ≤ Real.sqrt ((p.1 - q.1) ^ 2 + (p.2 - q.2) ^ 2) :=
  ⟨_, synthesize_unit_circle_eval,
    synthesize_circles_min_pairwise_distance .simple 1 1 1 (0, 0, 0, 0) 0 none none _
      synthesize_unit_circle_eval⟩

theorem offAt_true (off : K) (r : ℕ) :
    offAt true off r = if r % 2 = 1 then off else 0 := by
  simp [offAt]

/-- Closed form of the row loop for an offset-free layout with no caps:
every attempted row fits and emits the same column count. -/
theorem circle_rows_loop_simple_uniform [FloorRing K] {pX pY off sXB mX sY mY : K}
    (hpX : 0 < pX) (hpY : 0 < pY) (hxfit : sXB ≤ mX + EPSILON)
    {fuel a b : ℕ} (hfuel : circle_rows_fuel pY sY mY ≤ a + fuel) :
    (circle_rows_loop false pX pY off sXB mX sY mY none none fuel a b).1.length =
      (simple_row_total pY sY mY - a) * simple_column_count pX sXB mX ∧
    (circle_rows_loop false pX pY off sXB mX sY mY none none fuel a b).2.1 =
      List.replicate (simple_row_total pY sY mY - a) 0 ∧
    (circle_rows_loop false pX pY off sXB mX sY mY none none fuel a b).2.2 =
      List.replicate (simple_row_total pY sY mY - a) (simple_column_count pX sXB mX) := by
  induction fuel generalizing a b with
  | zero =>
    have hRa : simple_row_total pY sY mY ≤ a := by
      have hfc := Int.floor_le_ceil ((mY + EPSILON - sY) / pY)
      unfold circle_rows_fuel at hfuel
      unfold simple_row_total
      omega
    rw [circle_rows_loop_zero, Nat.sub_eq_zero_of_le hRa]
    simp
  | succ fuel ih =>
    rw [circle_rows_loop_succ]
    by_cases hy : mY + EPSILON < sY + (a : K) * pY
    · have hRa : simple_row_total pY sY mY ≤ a := by
        have hq : (mY + EPSILON - sY) / pY < (a : K) := by
          rw [div_lt_iff hpY]
          linarith
        have hq' : (mY + EPSILON - sY) / pY < ((a : ℤ) : K) := by exact_mod_cast hq
        have hfl : ⌊(mY + EPSILON - sY) / pY⌋ < (a : ℤ) := Int.floor_lt.mpr hq'
        unfold simple_row_total
        omega
      rw [if_pos hy, Nat.sub_eq_zero_of_le hRa]
      simp
    · have hlt : a < simple_row_total pY sY mY := by
        push_neg at hy
        have hq : (a : K) ≤ (mY + EPSILON - sY) / pY := by
          rw [le_div_iff hpY]
          linarith
        have hq' : ((a : ℤ) : K) ≤ (mY + EPSILON - sY) / pY := by exact_mod_cast hq
        have hfl : (a : ℤ) ≤ ⌊(mY + EPSILON - sY) / pY⌋ := Int.le_floor.mpr hq'
        unfold simple_row_total
        omega
      rw [if_neg hy]
      have hoffz : offAt false off a = 0 := by simp [offAt]
      rw [hoffz, add_zero]
      rw [if_neg (by intro hcon; linarith), if_neg (by intro hcon; linarith)]
      have hflnn : 0 ≤ ⌊(mX - sXB + EPSILON) / pX⌋ :=
        Int.floor_nonneg.mpr (div_nonneg (by linarith) (le_of_lt hpX))
      have hclamp : clamp_columns none (⌊(mX - sXB + EPSILON) / pX⌋ + 1) =
          ⌊(mX - sXB + EPSILON) / pX⌋ + 1 := rfl
      rw [hclamp, if_neg (by omega)]
      rw [show reached_max_rows none ((b : ℤ) + 1) = false from rfl]
      rw [if_neg (by simp)]
      obtain ⟨ihl, iho, ihc⟩ := ih (a := a + 1) (b := b + 1) (by omega)
      have hsub : simple_row_total pY sY mY - a =
          (simple_row_total pY sY mY - (a + 1)) + 1 := by omega
      have hcol : (⌊(mX - sXB + EPSILON) / pX⌋ + 1).toNat = simple_column_count pX sXB mX :=
        rfl
      refine ⟨?_, ?_, ?_⟩
      · rw [List.length_append, List.length_map, List.length_range, ihl, hcol, hsub,
          Nat.succ_mul]
        omega
      · rw [iho, hsub, List.replicate_succ]
      · rw [ihc, hcol, hsub, List.replicate_succ]

/-- C5: for the close (hexagonal) layout the synthesizer uses
`pitch_x = diameter + gap`, `pitch_y = √3/2 × pitch_x`, and offsets
odd-indexed rows by `pitch_x / 2`; for diameter 36 and gap 12 the pitch_y
is within 0.01 of 41.57 and the odd-row offset is 24. -/
theorem close_layout_lattice (d g : ℝ) (hd : 0 < d) (hg : 0 ≤ g) :
    circle_lattice_parameters (Real.sqrt 3) .close d g =
      .ok ⟨d + g, Real.sqrt 3 * (d + g) / 2, (d + g) / 2⟩ ∧
    (|Real.sqrt 3 * (36 + 12) / 2 - 41.57| ≤ 1 / 100 ∧ ((36 : ℝ) + 12) / 2 = 24) ∧
    (∀ (pw ph : ℝ) (margin : ℝ × ℝ × ℝ × ℝ) (mcols mrows : Option ℤ)
        (t : ExtractedTemplate ℝ),
        synthesize_circles (Real.sqrt 3) .close pw ph d margin g mcols mrows = .ok t →
        ∀ p ∈ t.centers_pt, ∃ r c : ℕ,
          p = (margin.2.2.2 + d / 2 + (if r % 2 = 1 then (d + g) / 2 else 0) +
                (c : ℝ) * (d + g),
               margin.1 + d / 2 + (r : ℝ) * (Real.sqrt 3 * (d + g) / 2))) := by
  refine ⟨?_, ⟨?_, by norm_num⟩, ?_⟩
  · unfold circle_lattice_parameters
    rw [if_neg (not_le.mpr hd), if_neg (not_lt.mpr hg)]
  · have hlow : (1.732 : ℝ) < Real.sqrt 3 :=
      (Real.lt_sqrt (by norm_num)).mpr (by norm_num)
    have hhigh : Real.sqrt 3 < 1.7321 :=
      (Real.sqrt_lt' (by norm_num)).mpr (by norm_num)
    rw [abs_le]
    constructor <;> nlinarith
  · intro pw ph margin mcols mrows t ht p hp
    obtain ⟨lat, result, grid, hlat, hgen, hgrid, hval, hpage, hlabel, hgridt, hcent, hne⟩ :=
      synthesize_circles_ok ht
    obtain ⟨_, _, _, hlatC⟩ := circle_lattice_parameters_ok hlat
    obtain rfl := hlatC rfl
    obtain ⟨lat2, hlat2, _, _, _, _, _, _, hout, _⟩ := generate_circle_centres_ok hgen
    rw [hlat] at hlat2
    injection hlat2 with hlat2
    rw [hcent] at hp
    rw [List.Perm.mem_iff (ensure_row_major_perm result.1)] at hp
    rw [hout, ← hlat2] at hp
    dsimp only at hp
    have hdec : (decide (Layout.close = Layout.close)) = true := rfl
    rw [hdec] at hp
    obtain ⟨r, c, _, _, _, _, hpeq⟩ := circle_rows_loop_mem hp
    refine ⟨r, c, ?_⟩
    rw [hpeq, offAt_true]

theorem close_layout_lattice_witness :
    circle_lattice_parameters (Real.sqrt 3) .close (36 : ℝ) 12 =
      .ok ⟨36 + 12, Real.sqrt 3 * (36 + 12) / 2, (36 + 12) / 2⟩ :=
  (close_layout_lattice 36 12 (by norm_num) (by norm_num)).1

theorem hypot_pairwise_of_sq {minD pX : K} {l : List (K × K)}
    (hsq : l.Pairwise (fun p q => pX ^ 2 ≤ (p.1 - q.1) ^ 2 + (p.2 - q.2) ^ 2))
    (hlt : minD < pX) :
    l.Pairwise (fun p q => hypot_lt (q.1 - p.1) (q.2 - p.2) minD = false) := by
  refine hsq.imp ?_
  intro p q hpq
  refine hypot_lt_eq_false ?_ hlt
  calc pX ^ 2 ≤ (p.1 - q.1) ^ 2 + (p.2 - q.2) ^ 2 := hpq
    _ = (q.1 - p.1) ^ 2 + (q.2 - p.2) ^ 2 := by ring

theorem hypot_false_symm {minD : K} {x y : K × K}
    (h : hypot_lt (y.1 - x.1) (y.2 - x.2) minD = false) :
    hypot_lt (x.1 - y.1) (x.2 - y.2) minD = false := by
  unfold hypot_lt at h ⊢
  by_cases hc : 0 < minD ∧ (x.1 - y.1) ^ 2 + (x.2 - y.2) ^ 2 < minD ^ 2
  · rw [if_pos ⟨hc.1, by nlinarith [hc.2]⟩] at h
    exact absurd h (by simp)
  · rw [if_neg hc]

set_option maxHeartbeats 1000000 in
/-- C4: the synthesizer with simple layout on a 612×792 pt page, diameter
36, gap 12 and margins of 36 returns a template with 11 columns, 15 rows
and 165 centres. -/
theorem synthesize_circles_simple_letter_grid :
    ∃ t : ExtractedTemplate ℝ,
      synthesize_circles (Real.sqrt 3) .simple 612 792 36 (36, 36, 36, 36) 12 none none =
        .ok t ∧
      t.grid.columns = 11 ∧ t.grid.rows = 15 ∧ t.centers_pt.length = 165 := by
  have hpX : (0 : ℝ) < 48 := by norm_num
  have hlat : circle_lattice_parameters (Real.sqrt 3) Layout.simple (36 : ℝ) 12 =
      .ok ⟨48, 48, 0⟩ := by
    norm_num [circle_lattice_parameters]
  have hR : simple_row_total (48 : ℝ) 54 738 = 15 := by
    unfold simple_row_total EPSILON
    rw [show ((738 : ℝ) + 1 / 1000000000 - 54) / 48 = 684000000001 / 48000000000 by
      norm_num]
    rw [show ⌊(684000000001 / 48000000000 : ℝ)⌋ = 14 from by
      rw [Int.floor_eq_iff] <;> norm_num]
    decide
  have hC : simple_column_count (48 : ℝ) 54 558 = 11 := by
    unfold simple_column_count EPSILON
    rw [show ((558 : ℝ) - 54 + 1 / 1000000000) / 48 = 504000000001 / 48000000000 by
      norm_num]
    rw [show ⌊(504000000001 / 48000000000 : ℝ)⌋ = 10 from by
      rw [Int.floor_eq_iff] <;> norm_num]
    decide
  have hxfit : (54 : ℝ) ≤ 558 + EPSILON := by norm_num [EPSILON]
  obtain ⟨hlen, hoffs, hcounts⟩ :=
    @circle_rows_loop_simple_uniform ℝ _ _ 48 48 0 54 558 54 738 hpX hpX hxfit
      (circle_rows_fuel (48 : ℝ) 54 738) 0 0 (by omega)
  simp only [hR, hC, Nat.sub_zero] at hlen hoffs hcounts
  set L := circle_rows_loop false (48 : ℝ) 48 0 54 558 54 738 none none
    (circle_rows_fuel (48 : ℝ) 54 738) 0 0 with hLdef
  have hlen165 : L.1.length = 165 := by simp [hlen]
  have hne : L.1 ≠ [] := by
    intro h0
    rw [h0] at hlen165
    simp at hlen165
  have hgen : generate_circle_centres (Real.sqrt 3) .simple (612 : ℝ) 792 36
      (36, 36, 36, 36) 12 none none = .ok L := by
    norm_num [generate_circle_centres, hlat, validate_margins, usable_extent,
      cap_nonpositive, EPSILON, hne, hLdef,
      show (decide (Layout.simple = Layout.close)) = false from rfl]
  have hgrid : grid_metadata Layout.simple (⟨48, 48, 0⟩ : CircleLattice ℝ) L.2.2 L.2.1 =
      .ok ⟨.circle_simple, 15, 11, 48, 48, List.replicate 15 0, none⟩ := by
    rw [hcounts, hoffs]
    norm_num [grid_metadata, mkGridMetrics, List.replicate, List.mem_replicate,
      Nat.max_self, Nat.max_zero, Nat.zero_max]
  have hbounds := fun {p : ℝ × ℝ} (hp : p ∈ L.1) =>
    circle_rows_loop_bounds hpX hpX (le_refl (0 : ℝ)) hp
  have hpair : L.1.Pairwise (fun p q : ℝ × ℝ =>
      (48 : ℝ) ^ 2 ≤ (p.1 - q.1) ^ 2 + (p.2 - q.2) ^ 2) := by
    rw [hLdef]
    exact circle_rows_loop_pairwise hpX hpX (by simp) (fun _ => le_refl _) _ 0 0
  -- assemble the pipeline
  unfold synthesize_circles
  rw [hlat]
  dsimp only
  rw [hgen]
  dsimp only
  rw [hgrid]
  dsimp only
  rw [show mkPageMetrics (612 : ℝ) 792 = .ok ⟨612, 792⟩ from by norm_num [mkPageMetrics]]
  dsimp only
  rw [show mkLabelGeometry .circle (36 : ℝ) 36 = .ok ⟨.circle, 36, 36⟩ from by
    norm_num [mkLabelGeometry]]
  dsimp only
  rw [mkExtractedTemplate, if_neg hne]
  dsimp only
  have hval : validate_circle_constraints
      (⟨⟨612, 792⟩, ⟨.circle_simple, 15, 11, 48, 48, List.replicate 15 0, none⟩,
        ⟨.circle, 36, 36⟩,
        ⟨L.1.headD (0, 0), L.1.getD L.2.2.dropLast.sum (0, 0)⟩,
        ensure_row_major L.1⟩ : ExtractedTemplate ℝ) (36, 36, 36, 36) = .ok () := by
    refine validate_circle_constraints_ok ?_ ?_
    · intro c hc
      have hc' : c ∈ L.1 := ((ensure_row_major_perm L.1).mem_iff).mp hc
      obtain ⟨hb1, hb2, hb3, hb4⟩ := hbounds hc'
      have heps := EPSILON_pos (K := ℝ)
      dsimp only
      refine ⟨by linarith, by linarith, by linarith, by linarith⟩
    · dsimp only
      refine List.Pairwise.perm ?_ (ensure_row_major_perm L.1).symm
        (fun hxy => hypot_false_symm hxy)
      exact hypot_pairwise_of_sq hpair (by norm_num [EPSILON])
  rw [hval]
  refine ⟨_, rfl, rfl, rfl, ?_⟩
  dsimp only
  rw [(ensure_row_major_perm L.1).length_eq, hlen165]

/-- C6 counterexample: with zero margins and page width `36 - 1/4000000000`
the usable width is strictly smaller than the diameter `36`, yet the
synthesizer returns a template instead of raising: the source compares the
usable span against `diameter - 1e-9`, not against `diameter`. -/
theorem synthesize_circles_usable_below_diameter_ok :
    (143999999999 / 4000000000 : ℝ) - 0 - 0 < 36 ∧
    synthesize_circles (Real.sqrt 3) .simple (143999999999 / 4000000000 : ℝ) 36 36
        (0, 0, 0, 0) 0 none none =
      .ok ⟨⟨143999999999 / 4000000000, 36⟩, ⟨.circle_simple, 1, 1, 36, 36, [0], none⟩,
        ⟨.circle, 36, 36⟩, ⟨(18, 18), (18, 18)⟩, [(18, 18)]⟩ := by
  refine ⟨by norm_num, ?_⟩
  have hceil : ⌈(1 / 36000000000 : ℝ)⌉ = 1 := by
    rw [Int.ceil_eq_iff] <;> norm_num
  have hfloor : ⌊(1 / 48000000000 : ℝ)⌋ = 0 := by
    rw [Int.floor_eq_iff] <;> norm_num
  norm_num [synthesize_circles, generate_circle_centres, circle_lattice_parameters,
    validate_margins, usable_extent, circle_rows_fuel, circle_rows_loop, offAt,
    clamp_columns, reached_max_rows, grid_metadata, mkGridMetrics, mkPageMetrics,
    mkLabelGeometry, mkExtractedTemplate, ensure_row_major, List.insertionSort,
    List.orderedInsert, validate_circle_constraints, LabelGeometry.diameter_pt,
    pairwise_overlap_check, hypot_lt, EPSILON, hceil, hfloor, List.range_succ,
    cap_nonpositive, List.foldr, List.dropLast, List.headD, List.getD, Option.getD,
    row_major_le]

/-- C6 (amended): the synthesizer raises a validation error whenever the
usable span on either axis (page dimension minus both margins) is below
`diameter - 1e-9`, whenever the diameter or a page dimension is
non-positive, and whenever zero centres result; every template it does
return has at least one centre and passes the post-generation bounds and
pairwise-distance check against the same margins. -/
theorem synthesize_circles_error_conditions (layout : Layout)
    (pw ph d g : ℝ) (m : ℝ × ℝ × ℝ × ℝ) (mc mr : Option ℤ) :
    ((pw - m.2.2.2 - m.2.1 < d - EPSILON ∨ ph - m.1 - m.2.2.1 < d - EPSILON ∨
        d ≤ 0 ∨ pw ≤ 0 ∨ ph ≤ 0) →
      ∃ e, synthesize_circles (Real.sqrt 3) layout pw ph d m g mc mr = .error e) ∧
    (∀ t, synthesize_circles (Real.sqrt 3) layout pw ph d m g mc mr = .ok t →
      t.centers_pt ≠ [] ∧ validate_circle_constraints t m = .ok ()) := by
  constructor
  · intro hbad
    cases hres : synthesize_circles (Real.sqrt 3) layout pw ph d m g mc mr with
    | error e => exact ⟨e, rfl⟩
    | ok t =>
      exfalso
      obtain ⟨lat, result, grid, hlat, hgen, -, -, -, -, -, -, -⟩ :=
        synthesize_circles_ok hres
      obtain ⟨hu1, hu2⟩ := generate_circle_centres_ok_usable hgen
      obtain ⟨-, -, -, -, -, -, hpw, hph, -, -⟩ := generate_circle_centres_ok hgen
      obtain ⟨hd, -, -, -⟩ := circle_lattice_parameters_ok hlat
      rcases hbad with hb | hb | hb | hb | hb
      · exact hu1 hb
      · exact hu2 hb
      · linarith
      · linarith
      · linarith
  · intro t ht
    obtain ⟨lat, result, grid, hlat, hgen, hgrid, hval, hpage, hlabel, hgridq,
      hcent, hne⟩ := synthesize_circles_ok ht
    refine ⟨?_, hval⟩
    rw [hcent]
    intro h0
    have hl := (ensure_row_major_perm result.1).length_eq
    rw [h0] at hl
    simp at hl
    exact hne (List.length_eq_zero.mp hl.symm)

/-- Closed instance of the amended error-condition theorem: a 5×5 pt page
cannot host a 10 pt circle, and the synthesizer errors out. -/
theorem synthesize_circles_error_conditions_witness :
    ∃ e, synthesize_circles (Real.sqrt 3) .simple (5 : ℝ) 5 10 (0, 0, 0, 0) 0 none none =
      .error e :=
  (synthesize_circles_error_conditions .simple 5 5 10 0 (0, 0, 0, 0) none none).1
    (Or.inl (by norm_num [EPSILON]))

/-- C3 (amended): the synthesizer's grid metadata records
`columns_per_row` exactly when the per-row counts are ragged, and the
recorded list is the count list itself (so its length equals `rows`);
the vector detector never records `columns_per_row`; the raster detector
always records it, with length equal to `rows`. -/
theorem columns_per_row_presence :
    (∀ (layout : Layout) (lat : CircleLattice ℝ) (counts : List ℕ) (offs : List ℝ)
        (grid : GridMetrics ℝ), grid_metadata layout lat counts offs = .ok grid →
        ((grid.columns_per_row = none ↔ ∀ c ∈ counts, c = counts.foldr max 0) ∧
          ∀ l, grid.columns_per_row = some l → l = counts ∧ l.length = grid.rows)) ∧
    (∀ (page_rect : FitzRect ℝ) (rects : List (DetectedRectangle ℝ))
        (t : ExtractedTemplate ℝ),
        pdf_extract_from_rectangles page_rect rects = .ok (some t) →
        t.grid.columns_per_row = none) ∧
    (∀ (pw ph : ℝ) (rects : List (RasterRectangle ℝ)) (t : ExtractedTemplate ℝ),
        image_extract_from_rectangles pw ph rects = .ok (some t) →
        ∃ l, t.grid.columns_per_row = some l ∧ l.length = t.grid.rows) := by
  refine ⟨?_, ?_, ?_⟩
  · intro layout lat counts offs grid h
    obtain ⟨hrows, hcols, hcpr⟩ := grid_metadata_ok_fields h
    by_cases huni : counts.all (fun value => value = counts.foldr max 0) = true
    · rw [if_pos huni] at hcpr
      constructor
      · rw [hcpr]
        rw [List.all_eq_true] at huni
        exact ⟨fun _ c hc => of_decide_eq_true (huni c hc), fun _ => rfl⟩
      · intro l hl
        rw [hcpr] at hl
        exact absurd hl (by simp)
    · rw [if_neg huni] at hcpr
      constructor
      · rw [hcpr]
        constructor
        · intro hl
          exact absurd hl (by simp)
        · intro hall
          exfalso
          refine huni ?_
          rw [List.all_eq_true]
          intro c hc
          exact decide_eq_true (hall c hc)
      · intro l hl
        rw [hcpr] at hl
        injection hl with hl
        subst hl
        exact ⟨rfl, by rw [hrows]⟩
  · intro page_rect rects t h
    unfold pdf_extract_from_rectangles at h
    split at h
    · exact absurd h (by simp)
    obtain ⟨-, -, hcpr, -⟩ := grid_inference_some h
    rw [hcpr]
    rfl
  · intro pw ph rects t h
    unfold image_extract_from_rectangles at h
    split at h
    · exact absurd h (by simp)
    obtain ⟨hrows, -, hcpr, -⟩ := grid_inference_some h
    rw [if_pos rfl] at hcpr
    exact ⟨_, hcpr, by rw [List.length_map, hrows]⟩

/-- Closed instance of the amended `columns_per_row` theorem: a one-row,
one-column metadata call records no `columns_per_row`, and indeed the
single count equals the maximum. -/
theorem columns_per_row_presence_witness :
    (⟨.circle_simple, 1, 1, (1 : ℝ), 1, [0], none⟩ : GridMetrics ℝ).columns_per_row =
        none ↔
      ∀ c ∈ [1], c = [1].foldr max 0 :=
  (columns_per_row_presence.1 .simple ⟨1, 1, 0⟩ [1] [0]
      ⟨.circle_simple, 1, 1, 1, 1, [0], none⟩
      (by norm_num [grid_metadata, mkGridMetrics])).1

/-- C9 (amended): for synthesizer templates `sum(columns_per_row)` equals
the number of centres when the field is present and `rows * columns`
equals it when the field is absent; for raster-detector templates (field
always present) the sum equals the number of centres; for
vector-detector templates the field is always absent and
`rows * columns` equals the number of centres when the clustered rows
are uniform. -/
theorem grid_center_count_consistency :
    (∀ (layout : Layout) (pw ph d g : ℝ) (m : ℝ × ℝ × ℝ × ℝ) (mc mr : Option ℤ)
        (t : ExtractedTemplate ℝ),
        synthesize_circles (Real.sqrt 3) layout pw ph d m g mc mr = .ok t →
        (∀ l, t.grid.columns_per_row = some l → l.sum = t.centers_pt.length) ∧
        (t.grid.columns_per_row = none →
          t.grid.rows * t.grid.columns = t.centers_pt.length)) ∧
    (∀ (pw ph : ℝ) (rects : List (RasterRectangle ℝ)) (t : ExtractedTemplate ℝ),
        image_extract_from_rectangles pw ph rects = .ok (some t) →
        ∀ l, t.grid.columns_per_row = some l → l.sum = t.centers_pt.length) ∧
    (∀ (page_rect : FitzRect ℝ) (rects : List (DetectedRectangle ℝ))
        (t : ExtractedTemplate ℝ),
        pdf_extract_from_rectangles page_rect rects = .ok (some t) →
        t.grid.columns_per_row = none ∧
        ((∀ row ∈ cluster_rows (fun r => r.center) (fun r => r.height)
            ((1 : ℝ) / 4) (1 / 2) rects, row.length = t.grid.columns) →
          t.grid.rows * t.grid.columns = t.centers_pt.length)) := by
  refine ⟨?_, ?_, ?_⟩
  · intro layout pw ph d g m mc mr t h
    obtain ⟨lat, result, grid, hlat, hgen, hgrid, -, -, -, hgridq, hcent, -⟩ :=
      synthesize_circles_ok h
    obtain ⟨lat2, -, -, -, -, -, -, -, hresult, -⟩ := generate_circle_centres_ok hgen
    have hsum : result.2.2.sum = result.1.length := by
      rw [hresult]
      exact (circle_rows_loop_counts _ _ _).1.symm
    have hlen : t.centers_pt.length = result.1.length := by
      rw [hcent, (ensure_row_major_perm _).length_eq]
    obtain ⟨hrows, hcols, hcpr⟩ := grid_metadata_ok_fields hgrid
    rw [← hgridq] at hrows hcols hcpr
    constructor
    · intro l hl
      rw [hcpr] at hl
      split at hl
      · exact absurd hl (by simp)
      injection hl with hl
      subst hl
      rw [hsum, hlen]
    · intro hnone
      rw [hcpr] at hnone
      split at hnone
      next huni =>
        rw [List.all_eq_true] at huni
        have huni' : ∀ c ∈ result.2.2, c = result.2.2.foldr max 0 :=
          fun c hc => of_decide_eq_true (huni c hc)
        rw [hrows, hcols, hlen, ← hsum, sum_of_uniform huni']
      · exact absurd hnone (by simp)
  · intro pw ph rects t h
    unfold image_extract_from_rectangles at h
    split at h
    · exact absurd h (by simp)
    obtain ⟨-, -, hcpr, hlen⟩ := grid_inference_some h
    rw [if_pos rfl] at hcpr
    intro l hl
    rw [hcpr] at hl
    injection hl with hl
    subst hl
    rw [hlen]
  · intro page_rect rects t h
    unfold pdf_extract_from_rectangles at h
    split at h
    · exact absurd h (by simp)
    next a as =>
      obtain ⟨hrows, hcols, hcpr, hlen⟩ := grid_inference_some h
      refine ⟨by rw [hcpr]; rfl, ?_⟩
      intro huni
      have huni' : ∀ c ∈ (cluster_rows (fun r => r.center) (fun r => r.height)
          ((1 : ℝ) / 4) (1 / 2) (a :: as)).map List.length, c = t.grid.columns := by
        intro c hc
        rw [List.mem_map] at hc
        obtain ⟨row, hrow, hrowlen⟩ := hc
        rw [← hrowlen]
        exact huni row hrow
      rw [hlen, sum_of_uniform huni', List.length_map, ← hrows]

/-- Closed instance of the amended count-consistency theorem: the unit
synthesizer template has no `columns_per_row` and `1 * 1` centre. -/
theorem grid_center_count_consistency_witness :
    (⟨.circle_simple, 1, 1, (1 : ℝ), 1, [0], none⟩ : GridMetrics ℝ).rows *
      (⟨.circle_simple, 1, 1, (1 : ℝ), 1, [0], none⟩ : GridMetrics ℝ).columns =
      [((1 : ℝ) / 2, (1 : ℝ) / 2)].length :=
  (grid_center_count_consistency.1 .simple 1 1 1 0 (0, 0, 0, 0) none none
      ⟨⟨1, 1⟩, ⟨.circle_simple, 1, 1, 1, 1, [0], none⟩, ⟨.circle, 1, 1⟩,
        ⟨(1 / 2, 1 / 2), (1 / 2, 1 / 2)⟩, [(1 / 2, 1 / 2)]⟩
      synthesize_unit_circle_eval).2 rfl

/-- C10: the vector detector's `extract_template` discards its
`prefer_vector` and `dpi` keyword arguments: two calls that agree on the
document and page index but differ arbitrarily in those two arguments
return identical results. -/
theorem pdf_extract_template_ignores_kwargs (document : Option (FitzDocument ℝ))
    (page : ℤ) (pv1 pv2 : Bool) (dpi1 dpi2 : ℤ) :
    pdf_extract_template document page pv1 dpi1 =
      pdf_extract_template document page pv2 dpi2 := rfl

/-- C8: the coordinate conversions are exact linear scalings, and the
compositions points→inches→points, points→mm→points, and (for a positive
page width) points→percent→points recover the original point exactly
(hence within `1e-6`). -/
theorem unit_conversions_round_trip (p : ℝ × ℝ) (page_width_pt : ℝ)
    (hw : 0 < page_width_pt) :
    inches_to_points_point (points_to_inches_point p) = p ∧
    mm_to_points_point (points_to_mm_point p) = p ∧
    (percent_of_width p page_width_pt).map
      (fun q => convert_point q .percent_width page_width_pt) = .ok p := by
  refine ⟨?_, ?_, ?_⟩
  · unfold inches_to_points_point points_to_inches_point inches_to_points points_to_inches
      POINTS_PER_INCH
    refine Prod.ext ?_ ?_ <;> field_simp
  · unfold mm_to_points_point points_to_mm_point mm_to_points points_to_mm points_to_inches
      POINTS_PER_INCH MM_PER_INCH
    refine Prod.ext ?_ ?_ <;> field_simp <;> ring
  · unfold percent_of_width
    rw [if_neg (by linarith)]
    show Except.ok (convert_point _ _ _) = _
    unfold convert_point convert_length
    have hw' : page_width_pt ≠ 0 := ne_of_gt hw
    field_simp

theorem unit_conversions_round_trip_witness :
    0 < (612 : ℝ) ∧
    (inches_to_points_point (points_to_inches_point ((3 : ℝ), 4)) = (3, 4) ∧
      mm_to_points_point (points_to_mm_point ((3 : ℝ), 4)) = (3, 4) ∧
      (percent_of_width ((3 : ℝ), 4) 612).map
        (fun q => convert_point q .percent_width 612) = .ok (3, 4)) :=
  ⟨by norm_num, unit_conversions_round_trip (3, 4) 612 (by norm_num)⟩

/-- C1: a successfully constructed `ExtractedTemplate` always has a
non-empty centre sequence sorted row-major (y then x, non-decreasing),
whatever the input ordering was, and constructing one from an empty
centre sequence fails. -/
theorem extracted_template_row_major :
    (∀ (page : PageMetrics ℝ) (grid : GridMetrics ℝ) (label : LabelGeometry ℝ)
        (anchors : AnchorPoints ℝ) (centers : List (ℝ × ℝ)) (t : ExtractedTemplate ℝ),
        mkExtractedTemplate page grid label anchors centers = .ok t →
        t.centers_pt ≠ [] ∧ t.centers_pt.Sorted row_major_le ∧ t.centers_pt.Perm centers) ∧
    (∀ (page : PageMetrics ℝ) (grid : GridMetrics ℝ) (label : LabelGeometry ℝ)
        (anchors : AnchorPoints ℝ),
        ∃ e, mkExtractedTemplate page grid label anchors ([] : List (ℝ × ℝ)) = .error e) := by
  constructor
  · intro page grid label anchors centers t h
    obtain ⟨hne, ht⟩ := mkExtractedTemplate_ok h
    subst ht
    dsimp only
    refine ⟨?_, ensure_row_major_sorted centers, ensure_row_major_perm centers⟩
    intro hnil
    have hperm := ensure_row_major_perm centers
    rw [hnil] at hperm
    exact hne hperm.symm.eq_nil
  · intro page grid label anchors
    exact ⟨_, rfl⟩

theorem extracted_template_row_major_witness :
    ∃ t : ExtractedTemplate ℝ,
      mkExtractedTemplate ⟨612, 792⟩ ⟨.rectangular, 1, 1, 1, 1, [], none⟩
          ⟨.rectangle, 1, 1⟩ ⟨(0, 0), (0, 0)⟩ [((2 : ℝ), 3), (1, 1)] = .ok t ∧
      t.centers_pt ≠ [] ∧ t.centers_pt.Sorted row_major_le := by
  have heval : mkExtractedTemplate (K := ℝ) ⟨612, 792⟩ ⟨.rectangular, 1, 1, 1, 1, [], none⟩
      ⟨.rectangle, 1, 1⟩ ⟨(0, 0), (0, 0)⟩ [((2 : ℝ), 3), (1, 1)] =
      .ok ⟨⟨612, 792⟩, ⟨.rectangular, 1, 1, 1, 1, [], none⟩, ⟨.rectangle, 1, 1⟩,
        ⟨(0, 0), (0, 0)⟩, [((1 : ℝ), 1), (2, 3)]⟩ := by
    rw [mkExtractedTemplate, if_neg (by simp)]
    norm_num [ensure_row_major, List.insertionSort, List.orderedInsert, row_major_le]
  have h := (extracted_template_row_major.1 _ _ _ _ _ _ heval)
  exact ⟨_, heval, h.1, h.2.1⟩

/-- C7: the vector detector's `extract_template` raises a fatal error on
a missing file or an out-of-range page index, and returns the negative
result "no template" (`ok none`, not an error) when the page has zero
drawings or when no drawing yields a candidate rectangle. -/
theorem pdf_extract_template_failure_modes :
    (∀ (page : ℤ) (pv : Bool) (dpi : ℤ),
        ∃ msg, pdf_extract_template (K := ℝ) none page pv dpi =
          .error (.fileNotFoundError msg)) ∧
    (∀ (doc : FitzDocument ℝ) (page : ℤ) (pv : Bool) (dpi : ℤ),
        page < 0 ∨ (doc.pages.length : ℤ) ≤ page →
        ∃ msg, pdf_extract_template (some doc) page pv dpi = .error (.indexError msg)) ∧
    (∀ (doc : FitzDocument ℝ) (page : ℤ) (pv : Bool) (dpi : ℤ) (pdf_page : FitzPage ℝ),
        doc.pages.get? page.toNat = some pdf_page →
        pdf_page.drawings.filterMap rectangle_from_drawing = [] →
        pdf_extract_template (some doc) page pv dpi = .ok none ∨
        ∃ msg, pdf_extract_template (some doc) page pv dpi = .error (.indexError msg)) ∧
    (∀ (doc : FitzDocument ℝ) (page : ℤ) (pv : Bool) (dpi : ℤ) (pdf_page : FitzPage ℝ),
        doc.pages.get? page.toNat = some pdf_page →
        pdf_page.drawings = [] →
        pdf_extract_template (some doc) page pv dpi = .ok none ∨
        ∃ msg, pdf_extract_template (some doc) page pv dpi = .error (.indexError msg)) := by
  have main :
      ∀ (doc : FitzDocument ℝ) (page : ℤ) (pv : Bool) (dpi : ℤ) (pdf_page : FitzPage ℝ),
        doc.pages.get? page.toNat = some pdf_page →
        pdf_page.drawings.filterMap rectangle_from_drawing = [] →
        pdf_extract_template (some doc) page pv dpi = .ok none ∨
        ∃ msg, pdf_extract_template (some doc) page pv dpi = .error (.indexError msg) := by
    intro doc page pv dpi pdf_page hget hrect
    simp only [pdf_extract_template]
    by_cases hrange : page < 0 ∨ (doc.pages.length : ℤ) ≤ page
    · exact Or.inr ⟨_, by rw [if_pos hrange]⟩
    · rw [if_neg hrange, hget]
      refine Or.inl ?_
      show pdf_extract_from_rectangles pdf_page.rect
        (pdf_page.drawings.filterMap rectangle_from_drawing) = Except.ok none
      rw [hrect]
      rfl
  refine ⟨fun page pv dpi => ⟨_, rfl⟩, ?_, main, ?_⟩
  · intro doc page pv dpi hrange
    exact ⟨_, by simp only [pdf_extract_template]; rw [if_pos hrange]⟩
  · intro doc page pv dpi pdf_page hget hdraw
    exact main doc page pv dpi pdf_page hget (by rw [hdraw]; rfl)

theorem pdf_extract_template_failure_modes_witness :
    (∃ msg, pdf_extract_template (K := ℝ) none 0 true 200 =
        .error (.fileNotFoundError msg)) ∧
    (∃ msg, pdf_extract_template
        (some (⟨[⟨⟨0, 0, 612, 792⟩, []⟩]⟩ : FitzDocument ℝ)) 5 true 200 =
        .error (.indexError msg)) ∧
    pdf_extract_template (some (⟨[⟨⟨0, 0, 612, 792⟩, []⟩]⟩ : FitzDocument ℝ)) 0 true 200 =
      .ok none := by
  refine ⟨pdf_extract_template_failure_modes.1 0 true 200,
    pdf_extract_template_failure_modes.2.1 _ 5 true 200 (by norm_num), ?_⟩
  have h := pdf_extract_template_failure_modes.2.2.2
    (⟨[⟨⟨0, 0, 612, 792⟩, []⟩]⟩ : FitzDocument ℝ) 0 true 200 ⟨⟨0, 0, 612, 792⟩, []⟩
    rfl rfl
  rcases h with h | ⟨msg, h⟩
  · exact h
  · exact absurd h
      (by intro hcontra; simp [pdf_extract_template, pdf_extract_from_rectangles] at hcontra)

end Templator
